import Mathlib

/-!
Shallow embedding of the rustmail plugin core (rust-press/rustpress-plugin-rustmail).

Conventions of the embedding:
* `DateTime<Utc>` instants are integers (seconds); every Rust call to `Utc::now()`
  becomes an explicit `now : Instant` parameter.
* `Uuid::now_v7()` fresh ids become explicit `Nat` id parameters (the only property
  the code relies on is freshness).
* `HashMap<K, V>` state is an association list `List (K × V)`; the list order models
  the arbitrary iteration order of the hash map, so statements quantify over it.
  `insert` replaces the first entry with the key, `remove` removes it; real hash-map
  states always have pairwise distinct keys.
* Rust `to_lowercase()` is `lowerStr`; `f64` rates are modelled as `Rat`.
* Fallible operations return `Except`; `&self` methods are pure functions of the
  state, `&mut self` methods also return the updated state.
-/

namespace Rustmail

/-- Seconds since the epoch, modelling `DateTime<Utc>`. -/
abbrev Instant := Int

/-- Model of Rust `str::to_lowercase` (character-wise lowering). -/
def lowerStr (s : String) : String := String.mk (s.data.map Char.toLower)

/-- `HashMap::get`: first entry with the key. -/
def mapGet {β : Type} : List (String × β) → String → Option β
  | [], _ => none
  | (k, v) :: rest, key => if k = key then some v else mapGet rest key

/-- `HashMap::insert`: replace the entry with the key, or add it. -/
def mapInsert {β : Type} : List (String × β) → String → β → List (String × β)
  | [], key, val => [(key, val)]
  | (k, v) :: rest, key, val =>
    if k = key then (key, val) :: rest else (k, v) :: mapInsert rest key val

/-- `HashMap::remove`: drop the entry with the key. -/
def mapRemove {β : Type} : List (String × β) → String → List (String × β)
  | [], _ => []
  | (k, v) :: rest, key => if k = key then rest else (k, v) :: mapRemove rest key

/-- Same association-list operations for `Nat` keys (queue items keyed by `Uuid`). -/
def imapGet {β : Type} : List (Nat × β) → Nat → Option β
  | [], _ => none
  | (k, v) :: rest, key => if k = key then some v else imapGet rest key

/-- `HashMap::insert` for `Nat` keys. -/
def imapInsert {β : Type} : List (Nat × β) → Nat → β → List (Nat × β)
  | [], key, val => [(key, val)]
  | (k, v) :: rest, key, val =>
    if k = key then (key, val) :: rest else (k, v) :: imapInsert rest key val

/-- Number of entries carrying a given key. -/
def countKey {β : Type} (m : List (String × β)) (key : String) : Nat :=
  (m.filter (fun p => p.1 = key)).length

/-! ## Email model — src/models/email.rs -/

/-- `EmailAddress`: an address with an optional display name. -/
structure EmailAddress where
  email : String
  name : Option String := none
deriving DecidableEq, Repr

/-- `Attachment` (content bytes as a list of naturals). -/
structure Attachment where
  filename : String
  content_type : String
  content : List Nat
  inline : Bool := false
  content_id : Option String := none
deriving DecidableEq, Repr

/-- `EmailPriority`. -/
inductive EmailPriority
  | Low | Normal | High | Urgent
deriving DecidableEq, Repr

/-- `Email` message. `from` and `to` are Lean keywords, so those fields are `from_addr` and `to_addrs`;
`template_data` (a `serde_json::Value`) is modelled as an opaque string. -/
structure Email where
  id : Nat
  from_addr : EmailAddress
  reply_to : Option EmailAddress := none
  to_addrs : List EmailAddress
  cc : List EmailAddress := []
  bcc : List EmailAddress := []
  subject : String
  text_body : Option String := none
  html_body : Option String := none
  attachments : List Attachment := []
  headers : List (String × String) := []
  priority : EmailPriority := .Normal
  template_id : Option Nat := none
  template_data : Option String := none
  tags : List String := []
  metadata : List (String × String) := []
  created_at : Instant
deriving DecidableEq, Repr

/-- `Email::new(from, to, subject)` — note: no body validation happens here. -/
def Email.new (from_addr recipient : EmailAddress) (subject : String)
    (id : Nat) (now : Instant) : Email :=
  { id := id
    from_addr := from_addr
    reply_to := none
    to_addrs := [recipient]
    cc := []
    bcc := []
    subject := subject
    text_body := none
    html_body := none
    attachments := []
    headers := []
    priority := .Normal
    template_id := none
    template_data := none
    tags := []
    metadata := []
    created_at := now }

/-- `Email::recipient_count`. -/
def Email.recipient_count (e : Email) : Nat :=
  e.to_addrs.length + e.cc.length + e.bcc.length

/-- `Email::has_body`. -/
def Email.has_body (e : Email) : Bool :=
  e.text_body.isSome || e.html_body.isSome

/-- `EmailBuilder` (src/models/email.rs). -/
structure EmailBuilder where
  from_addr : Option EmailAddress := none
  reply_to : Option EmailAddress := none
  to_addrs : List EmailAddress := []
  cc : List EmailAddress := []
  bcc : List EmailAddress := []
  subject : Option String := none
  text_body : Option String := none
  html_body : Option String := none
  attachments : List Attachment := []
  headers : List (String × String) := []
  priority : EmailPriority := .Normal
  tags : List String := []
  metadata : List (String × String) := []
deriving DecidableEq, Repr

/-- `EmailBuilder::build`, validating from, subject, recipients and body. -/
def EmailBuilder.build (b : EmailBuilder) (id : Nat) (now : Instant) :
    Except String Email :=
  match b.from_addr with
  | none => .error "From address is required"
  | some from_addr =>
    match b.subject with
    | none => .error "Subject is required"
    | some subject =>
      if b.to_addrs.isEmpty && b.cc.isEmpty && b.bcc.isEmpty then
        .error "At least one recipient is required"
      else if b.text_body.isNone && b.html_body.isNone then
        .error "Email must have a body (text or HTML)"
      else
        .ok { id := id
              from_addr := from_addr
              reply_to := b.reply_to
              to_addrs := b.to_addrs
              cc := b.cc
              bcc := b.bcc
              subject := subject
              text_body := b.text_body
              html_body := b.html_body
              attachments := b.attachments
              headers := b.headers
              priority := b.priority
              template_id := none
              template_data := none
              tags := b.tags
              metadata := b.metadata
              created_at := now }

/-! ## Queue model — src/models/queue.rs -/

/-- `QueueStatus`. -/
inductive QueueStatus
  | Pending | Processing | Sent | Failed | Deferred | Cancelled
deriving DecidableEq, Repr

/-- `QueueItem`. -/
structure QueueItem where
  id : Nat
  email : Email
  status : QueueStatus
  attempts : Nat
  max_attempts : Nat
  last_error : Option String
  scheduled_at : Instant
  next_retry_at : Option Instant
  started_at : Option Instant
  completed_at : Option Instant
  created_at : Instant
  priority : Int
  worker_id : Option String
deriving DecidableEq, Repr

/-- `QueueItem::new`. -/
def QueueItem.new (email : Email) (id : Nat) (now : Instant) : QueueItem :=
  { id := id
    email := email
    status := .Pending
    attempts := 0
    max_attempts := 3
    last_error := none
    scheduled_at := now
    next_retry_at := none
    started_at := none
    completed_at := none
    created_at := now
    priority := 0
    worker_id := none }

/-- `QueueItem::scheduled`. -/
def QueueItem.scheduled (email : Email) (send_at : Instant)
    (id : Nat) (now : Instant) : QueueItem :=
  { QueueItem.new email id now with scheduled_at := send_at }

/-- `QueueItem::with_priority`. -/
def QueueItem.with_priority (it : QueueItem) (priority : Int) : QueueItem :=
  { it with priority := priority }

/-- `QueueItem::with_max_attempts`. -/
def QueueItem.with_max_attempts (it : QueueItem) (max : Nat) : QueueItem :=
  { it with max_attempts := max }

/-- `QueueItem::is_ready`. -/
def QueueItem.is_ready (it : QueueItem) (now : Instant) : Bool :=
  (it.status = QueueStatus.Pending || it.status = QueueStatus.Deferred)
    && it.scheduled_at ≤ now
    && (match it.next_retry_at with | none => true | some t => t ≤ now)

/-- `QueueItem::can_retry`. -/
def QueueItem.can_retry (it : QueueItem) : Bool :=
  it.attempts < it.max_attempts

/-- `QueueItem::start_processing`. -/
def QueueItem.start_processing (it : QueueItem) (worker_id : String)
    (now : Instant) : QueueItem :=
  { it with
    status := .Processing
    started_at := some now
    worker_id := some worker_id
    attempts := it.attempts + 1 }

/-- `QueueItem::mark_sent`. -/
def QueueItem.mark_sent (it : QueueItem) (now : Instant) : QueueItem :=
  { it with status := .Sent, completed_at := some now, worker_id := none }

/-- `QueueItem::mark_failed`: exponential backoff
`Duration::seconds(60 * (1 << attempts.min(5)))`. -/
def QueueItem.mark_failed (it : QueueItem) (error : String)
    (now : Instant) : QueueItem :=
  let it := { it with last_error := some error, worker_id := none }
  if it.can_retry then
    { it with
      status := .Deferred
      next_retry_at := some (now + 60 * 2 ^ min it.attempts 5) }
  else
    { it with status := .Failed, completed_at := some now }

/-- `QueueItem::cancel`. -/
def QueueItem.cancel (it : QueueItem) (now : Instant) : QueueItem :=
  { it with status := .Cancelled, completed_at := some now }

/-- `QueueStats` (the three `f64` fields become `Rat`). -/
structure QueueStats where
  pending : Nat := 0
  processing : Nat := 0
  sent : Nat := 0
  failed : Nat := 0
  deferred : Nat := 0
  avg_send_time_ms : Rat := 0
  success_rate : Rat := 0
  throughput : Rat := 0
deriving DecidableEq, Repr

/-- `BatchSendRequest`. -/
structure BatchSendRequest where
  emails : List Email
  scheduled_at : Option Instant := none
  priority : Option Int := none
  tags : List String := []
  max_attempts : Option Nat := none
deriving DecidableEq, Repr

/-- `BatchError`. -/
structure BatchError where
  index : Nat
  message : String
deriving DecidableEq, Repr

/-- `BatchSendResult`. -/
structure BatchSendResult where
  queued : Nat
  failed : Nat
  queue_ids : List Nat
  errors : List BatchError
deriving DecidableEq, Repr

/-- `RetryPolicy` (`multiplier: f64` as `Rat`). -/
structure RetryPolicy where
  max_attempts : Nat
  initial_delay_secs : Nat
  max_delay_secs : Nat
  multiplier : Rat
  retryable_errors : List String
deriving DecidableEq, Repr

/-- `RetryPolicy::default`. -/
def RetryPolicy.rpDefault : RetryPolicy :=
  { max_attempts := 3
    initial_delay_secs := 60
    max_delay_secs := 3600
    multiplier := 2
    retryable_errors := ["connection", "timeout", "temporary", "rate limit"] }

/-- `RetryPolicy::is_retryable`: the lowercased error text contains one of the
configured substrings (Rust `str::contains` is list infix on characters). -/
def RetryPolicy.is_retryable (p : RetryPolicy) (error : String) : Bool :=
  p.retryable_errors.any (fun e =>
    decide (List.IsInfix (lowerStr e).data (lowerStr error).data))

/-! ## Queue service — src/services/queue.rs -/

/-- `QueueError`. -/
inductive QueueError
  | NotFound (id : String)
  | QueueFull
  | Invalid (msg : String)
deriving DecidableEq, Repr

/-- `Display` strings for `QueueError` (thiserror messages). -/
def QueueError.toMessage : QueueError → String
  | .NotFound s => "Item not found: " ++ s
  | .QueueFull => "Queue full"
  | .Invalid s => "Invalid operation: " ++ s

/-- Debug rendering of a status, for the `Invalid` claim message. -/
def QueueStatus.debugStr : QueueStatus → String
  | .Pending => "Pending"
  | .Processing => "Processing"
  | .Sent => "Sent"
  | .Failed => "Failed"
  | .Deferred => "Deferred"
  | .Cancelled => "Cancelled"

/-- `QueueService` state: items map, retry policy, capacity. -/
structure QueueService where
  items : List (Nat × QueueItem)
  retry_policy : RetryPolicy
  max_size : Nat
deriving DecidableEq, Repr

/-- `QueueService::new`. -/
def QueueService.new : QueueService :=
  { items := [], retry_policy := RetryPolicy.rpDefault, max_size := 100000 }

/-- `QueueService::with_retry_policy`. -/
def QueueService.with_retry_policy (s : QueueService) (policy : RetryPolicy) :
    QueueService :=
  { s with retry_policy := policy }

/-- `QueueService::with_max_size`. -/
def QueueService.with_max_size (s : QueueService) (size : Nat) : QueueService :=
  { s with max_size := size }

/-- `QueueService::enqueue`. -/
def QueueService.enqueue (s : QueueService) (email : Email) (id : Nat)
    (now : Instant) : Except QueueError QueueItem × QueueService :=
  if s.items.length ≥ s.max_size then (.error .QueueFull, s)
  else
    let item := (QueueItem.new email id now).with_max_attempts s.retry_policy.max_attempts
    (.ok item, { s with items := imapInsert s.items item.id item })

/-- `QueueService::schedule`. -/
def QueueService.schedule (s : QueueService) (email : Email) (send_at : Instant)
    (id : Nat) (now : Instant) : Except QueueError QueueItem × QueueService :=
  if s.items.length ≥ s.max_size then (.error .QueueFull, s)
  else
    let item := (QueueItem.scheduled email send_at id now).with_max_attempts
      s.retry_policy.max_attempts
    (.ok item, { s with items := imapInsert s.items item.id item })

/-- `QueueService::get`. -/
def QueueService.get (s : QueueService) (id : Nat) : Option QueueItem :=
  imapGet s.items id

/-- The `sort_by` comparator of `get_pending`: a sorts before b when its
priority is higher, or priorities tie and its scheduled time is not later.
Rust `sort_by` is stable, as is `mergeSort`. -/
def pendingCompare (a b : QueueItem) : Bool :=
  b.priority < a.priority
    || (b.priority = a.priority && a.scheduled_at ≤ b.scheduled_at)

/-- `QueueService::get_pending`: filter ready items, stable-sort by priority
descending then scheduled time ascending, truncate to the limit.  The input
list order stands for the arbitrary `HashMap` iteration order. -/
def QueueService.get_pending (s : QueueService) (limit : Nat)
    (now : Instant) : List QueueItem :=
  let pending := (s.items.map Prod.snd).filter (fun it =>
    (it.status = QueueStatus.Pending || it.status = QueueStatus.Deferred)
      && it.scheduled_at ≤ now
      && (match it.next_retry_at with | none => true | some t => t ≤ now))
  let sorted := pending.mergeSort pendingCompare
  sorted.take limit

/-- `QueueService::claim`. -/
def QueueService.claim (s : QueueService) (id : Nat) (worker_id : String)
    (now : Instant) : Except QueueError QueueItem × QueueService :=
  match imapGet s.items id with
  | none => (.error (.NotFound (toString id)), s)
  | some item =>
    if item.status = QueueStatus.Pending || item.status = QueueStatus.Deferred then
      let item := item.start_processing worker_id now
      (.ok item, { s with items := imapInsert s.items id item })
    else
      (.error (.Invalid ("Item status is " ++ item.status.debugStr)), s)

/-- `QueueService::mark_sent`. -/
def QueueService.mark_sent (s : QueueService) (id : Nat) (now : Instant) :
    Except QueueError Unit × QueueService :=
  match imapGet s.items id with
  | none => (.error (.NotFound (toString id)), s)
  | some item =>
    (.ok (), { s with items := imapInsert s.items id (item.mark_sent now) })

/-- `QueueService::mark_failed`. -/
def QueueService.mark_failed (s : QueueService) (id : Nat) (error : String)
    (now : Instant) : Except QueueError Unit × QueueService :=
  match imapGet s.items id with
  | none => (.error (.NotFound (toString id)), s)
  | some item =>
    (.ok (), { s with items := imapInsert s.items id (item.mark_failed error now) })

/-- `QueueService::cancel`. -/
def QueueService.cancel (s : QueueService) (id : Nat) (now : Instant) :
    Except QueueError Unit × QueueService :=
  match imapGet s.items id with
  | none => (.error (.NotFound (toString id)), s)
  | some item =>
    if item.status = QueueStatus.Sent then
      (.error (.Invalid "Cannot cancel sent item"), s)
    else
      (.ok (), { s with items := imapInsert s.items id (item.cancel now) })

/-- `QueueService::retry`. -/
def QueueService.retry (s : QueueService) (id : Nat) (now : Instant) :
    Except QueueError Unit × QueueService :=
  match imapGet s.items id with
  | none => (.error (.NotFound (toString id)), s)
  | some item =>
    if item.status = QueueStatus.Failed || item.status = QueueStatus.Cancelled then
      let item := { item with
        status := QueueStatus.Pending
        attempts := 0
        last_error := none
        next_retry_at := none
        scheduled_at := now }
      (.ok (), { s with items := imapInsert s.items id item })
    else
      (.error (.Invalid "Item must be failed or cancelled"), s)

/-- `QueueService::set_priority`. -/
def QueueService.set_priority (s : QueueService) (id : Nat) (priority : Int) :
    Except QueueError Unit × QueueService :=
  match imapGet s.items id with
  | none => (.error (.NotFound (toString id)), s)
  | some item =>
    (.ok (), { s with items := imapInsert s.items id { item with priority := priority } })

/-- One step of the `stats` counting loop. -/
def QueueStats.countItem (st : QueueStats) (it : QueueItem) (day_ago : Instant) :
    QueueStats :=
  match it.status with
  | .Pending => { st with pending := st.pending + 1 }
  | .Processing => { st with processing := st.processing + 1 }
  | .Sent =>
    if (match it.completed_at with | none => false | some t => day_ago < t) then
      { st with sent := st.sent + 1 }
    else st
  | .Failed =>
    if (match it.completed_at with | none => false | some t => day_ago < t) then
      { st with failed := st.failed + 1 }
    else st
  | .Deferred => { st with deferred := st.deferred + 1 }
  | .Cancelled => st

/-- `QueueService::stats`: count by status (Sent and Failed within the trailing
24 hours), then set the success rate only when `sent + failed > 0`. -/
def QueueService.stats (s : QueueService) (now : Instant) : QueueStats :=
  let day_ago := now - 24 * 3600
  let st := (s.items.map Prod.snd).foldl
    (fun st it => st.countItem it day_ago) ({} : QueueStats)
  let total := st.sent + st.failed
  if 0 < total then
    { st with success_rate := ((st.sent : Rat) / (total : Rat)) * 100 }
  else st

/-! ## Log model — src/models/log.rs -/

/-- `EmailEvent`. -/
inductive EmailEvent
  | Queued | Sent | Delivered | Bounced | SoftBounce | HardBounce
  | Opened | Clicked | SpamComplaint | Unsubscribed | Failed | Deferred | Cancelled
deriving DecidableEq, Repr

/-- `EmailLog` entry (tracking metadata kept to the fields the services read). -/
structure EmailLog where
  id : Nat
  email_id : Nat
  queue_id : Option Nat := none
  event : EmailEvent
  recipient : String
  subject : String
  template_id : Option Nat := none
  template_name : Option String := none
  timestamp : Instant
  provider_message_id : Option String := none
  provider : String := "smtp"
  provider_response : Option String := none
  error : Option String := none
  ip_address : Option String := none
  user_agent : Option String := none
  click_url : Option String := none
deriving DecidableEq, Repr

/-- `EmailLog::new`. -/
def EmailLog.new (email_id : Nat) (event : EmailEvent) (recipient subject : String)
    (id : Nat) (now : Instant) : EmailLog :=
  { id := id
    email_id := email_id
    event := event
    recipient := recipient
    subject := subject
    timestamp := now }

/-- `EmailLog::with_provider`. -/
def EmailLog.with_provider (l : EmailLog) (provider : String)
    (message_id : Option String) : EmailLog :=
  { l with provider := provider, provider_message_id := message_id }

/-- `EmailLog::with_error`. -/
def EmailLog.with_error (l : EmailLog) (error : String) : EmailLog :=
  { l with error := some error }

/-- `LogStats` (totals plus `f64` rates as `Rat`). -/
structure LogStats where
  total_sent : Nat := 0
  total_delivered : Nat := 0
  total_bounced : Nat := 0
  total_opened : Nat := 0
  total_clicked : Nat := 0
  total_spam_complaints : Nat := 0
  total_unsubscribes : Nat := 0
  total_failed : Nat := 0
  delivery_rate : Rat := 0
  open_rate : Rat := 0
  click_rate : Rat := 0
  bounce_rate : Rat := 0
  spam_rate : Rat := 0
deriving DecidableEq, Repr

/-- `LogStats::calculate_rates`: each family of rates is written only when its
denominator is positive; otherwise the field keeps its previous value. -/
def LogStats.calculate_rates (s : LogStats) : LogStats :=
  let s :=
    if 0 < s.total_sent then
      { s with
        delivery_rate := ((s.total_delivered : Rat) / (s.total_sent : Rat)) * 100
        bounce_rate := ((s.total_bounced : Rat) / (s.total_sent : Rat)) * 100
        spam_rate := ((s.total_spam_complaints : Rat) / (s.total_sent : Rat)) * 100 }
    else s
  let s :=
    if 0 < s.total_delivered then
      { s with open_rate := ((s.total_opened : Rat) / (s.total_delivered : Rat)) * 100 }
    else s
  if 0 < s.total_opened then
    { s with click_rate := ((s.total_clicked : Rat) / (s.total_opened : Rat)) * 100 }
  else s

/-- `BounceType`. -/
inductive BounceType
  | Hard | Soft | General
deriving DecidableEq, Repr

/-- `BounceRecord`. -/
structure BounceRecord where
  id : Nat
  email : String
  bounce_type : BounceType
  reason : Option String
  diagnostic : Option String
  first_bounce : Instant
  last_bounce : Instant
  bounce_count : Nat
  suppressed : Bool
deriving DecidableEq, Repr

/-- `BounceRecord::new`: starts at count 1, suppressed iff the type is hard. -/
def BounceRecord.new (email : String) (bounce_type : BounceType)
    (id : Nat) (now : Instant) : BounceRecord :=
  { id := id
    email := lowerStr email
    bounce_type := bounce_type
    reason := none
    diagnostic := none
    first_bounce := now
    last_bounce := now
    bounce_count := 1
    suppressed := bounce_type = BounceType.Hard }

/-- `BounceRecord::add_bounce`: bump the count; a soft record reaching count 3
sets its own suppressed flag. -/
def BounceRecord.add_bounce (r : BounceRecord) (now : Instant) : BounceRecord :=
  let r := { r with last_bounce := now, bounce_count := r.bounce_count + 1 }
  if r.bounce_type = BounceType.Soft && 3 ≤ r.bounce_count then
    { r with suppressed := true }
  else r

/-- `ComplaintType`. -/
inductive ComplaintType
  | Abuse | AuthFailure | Fraud | NotSpam | Other | Virus
deriving DecidableEq, Repr

/-- `ComplaintRecord`. -/
structure ComplaintRecord where
  id : Nat
  email : String
  complaint_type : ComplaintType
  email_id : Option Nat
  feedback_id : Option String
  timestamp : Instant
  user_agent : Option String
  suppressed : Bool
deriving DecidableEq, Repr

/-- `ComplaintRecord::new`. -/
def ComplaintRecord.new (email : String) (complaint_type : ComplaintType)
    (id : Nat) (now : Instant) : ComplaintRecord :=
  { id := id
    email := lowerStr email
    complaint_type := complaint_type
    email_id := none
    feedback_id := none
    timestamp := now
    user_agent := none
    suppressed := complaint_type = ComplaintType.Abuse }

/-! ## Log service — src/services/log.rs -/

/-- `SuppressionReason`. -/
inductive SuppressionReason
  | HardBounce | SpamComplaint | Unsubscribed | Manual
deriving DecidableEq, Repr

/-- `LogService` state. -/
structure LogState where
  logs : List EmailLog
  bounces : List (String × BounceRecord)
  complaints : List (String × ComplaintRecord)
  suppression_list : List (String × SuppressionReason)
  max_entries : Nat
deriving DecidableEq, Repr

/-- `LogService::new`. -/
def LogState.new : LogState :=
  { logs := [], bounces := [], complaints := [], suppression_list := []
    max_entries := 100000 }

/-- `LogService::add_to_suppression`. -/
def LogState.add_to_suppression (st : LogState) (email : String)
    (reason : SuppressionReason) : LogState :=
  { st with suppression_list := mapInsert st.suppression_list (lowerStr email) reason }

/-- `LogService::remove_from_suppression`. -/
def LogState.remove_from_suppression (st : LogState) (email : String) : LogState :=
  { st with suppression_list := mapRemove st.suppression_list (lowerStr email) }

/-- `LogService::is_suppressed`. -/
def LogState.is_suppressed (st : LogState) (email : String) : Bool :=
  (mapGet st.suppression_list (lowerStr email)).isSome

/-- `LogService::get_suppression_reason`. -/
def LogState.get_suppression_reason (st : LogState) (email : String) :
    Option SuppressionReason :=
  mapGet st.suppression_list (lowerStr email)

/-- `LogService::get_bounce`. -/
def LogState.get_bounce (st : LogState) (email : String) : Option BounceRecord :=
  mapGet st.bounces (lowerStr email)

/-- The bounce classification `record_bounce` derives from the log event. -/
def bounceTypeOf (ev : EmailEvent) : BounceType :=
  match ev with
  | .HardBounce => BounceType.Hard
  | .SoftBounce => BounceType.Soft
  | _ => BounceType.General

/-- The existing-record branch of `record_bounce`: another bounce is counted,
a soft record is escalated to hard when the incoming bounce is hard, and the
reason is refreshed from the log entry. -/
def updateBounceRecord (record : BounceRecord) (bounce_type : BounceType)
    (errorText : Option String) (now : Instant) : BounceRecord :=
  let record := record.add_bounce now
  let record :=
    if record.bounce_type = BounceType.Soft && bounce_type = BounceType.Hard then
      { record with bounce_type := BounceType.Hard }
    else record
  { record with reason := errorText }

/-- `LogService::record_bounce`: update or create the bounce record, then add
to the suppression list only when the incoming bounce is hard. -/
def LogState.record_bounce (st : LogState) (log : EmailLog)
    (freshId : Nat) (now : Instant) : LogState :=
  let email := lowerStr log.recipient
  let bounce_type := bounceTypeOf log.event
  let st2 :=
    match mapGet st.bounces email with
    | some record =>
      { st with bounces := (mapInsert st.bounces email
          (updateBounceRecord record bounce_type log.error now)) }
    | none =>
      { st with bounces := (mapInsert st.bounces email
          { BounceRecord.new email bounce_type freshId now with
            reason := log.error }) }
  if bounce_type = BounceType.Hard then
    st2.add_to_suppression email SuppressionReason.HardBounce
  else st2

/-- `LogService::record_complaint`: replace the complaint record and suppress. -/
def LogState.record_complaint (st : LogState) (log : EmailLog)
    (freshId : Nat) (now : Instant) : LogState :=
  let email := lowerStr log.recipient
  let record := { ComplaintRecord.new email ComplaintType.Abuse freshId now with
    email_id := some log.email_id
    user_agent := log.user_agent }
  let st := { st with complaints := mapInsert st.complaints email record }
  st.add_to_suppression email SuppressionReason.SpamComplaint

/-- `LogService::log`: dispatch bounce/complaint/unsubscribe side effects, append
the entry, trim the oldest entries over the in-memory ceiling. -/
def LogState.log (st : LogState) (entry : EmailLog)
    (freshId : Nat) (now : Instant) : LogState :=
  let st :=
    match entry.event with
    | .Bounced | .HardBounce | .SoftBounce => st.record_bounce entry freshId now
    | .SpamComplaint => st.record_complaint entry freshId now
    | .Unsubscribed => st.add_to_suppression entry.recipient .Unsubscribed
    | _ => st
  let logs := st.logs ++ [entry]
  let logs :=
    if st.max_entries < logs.length then logs.drop (logs.length - st.max_entries)
    else logs
  { st with logs := logs }

/-- `LogService::log_queued`. -/
def LogState.log_queued (st : LogState) (email_id : Nat) (recipient subject : String)
    (freshId : Nat) (now : Instant) : LogState :=
  st.log (EmailLog.new email_id .Queued recipient subject freshId now) freshId now

/-- `LogService::log_sent`. -/
def LogState.log_sent (st : LogState) (email_id : Nat) (recipient subject : String)
    (provider : String) (message_id : Option String)
    (freshId : Nat) (now : Instant) : LogState :=
  st.log ((EmailLog.new email_id .Sent recipient subject freshId now).with_provider
    provider message_id) freshId now

/-- `LogService::log_failed`. -/
def LogState.log_failed (st : LogState) (email_id : Nat) (recipient subject : String)
    (error : String) (freshId : Nat) (now : Instant) : LogState :=
  st.log ((EmailLog.new email_id .Failed recipient subject freshId now).with_error
    error) freshId now

/-- One step of the `stats` counting loop over a log entry in the window. -/
def LogStats.countEvent (s : LogStats) (event : EmailEvent) : LogStats :=
  match event with
  | .Sent => { s with total_sent := s.total_sent + 1 }
  | .Delivered => { s with total_delivered := s.total_delivered + 1 }
  | .Bounced | .HardBounce | .SoftBounce =>
    { s with total_bounced := s.total_bounced + 1 }
  | .Opened => { s with total_opened := s.total_opened + 1 }
  | .Clicked => { s with total_clicked := s.total_clicked + 1 }
  | .SpamComplaint => { s with total_spam_complaints := s.total_spam_complaints + 1 }
  | .Unsubscribed => { s with total_unsubscribes := s.total_unsubscribes + 1 }
  | .Failed => { s with total_failed := s.total_failed + 1 }
  | _ => s

/-- `LogService::stats`: count events inside `[from, to]` (defaults: trailing
30 days up to now), then `calculate_rates`. -/
def LogState.stats (st : LogState) (from_date to_date : Option Instant)
    (now : Instant) : LogStats :=
  let fromI := from_date.getD (now - 30 * 24 * 3600)
  let toI := to_date.getD now
  let s := st.logs.foldl
    (fun s log =>
      if log.timestamp < fromI || toI < log.timestamp then s
      else s.countEvent log.event)
    ({} : LogStats)
  s.calculate_rates

/-! ## Mailer service — src/services/mailer.rs -/

/-- `SendResult` returned by the SMTP transport. -/
structure SendResult where
  message_id : Option String
  response : String
deriving DecidableEq, Repr

/-- Outcome of `MailerService::send` (the `MailerError` variants it can hit). -/
inductive SendOutcome
  | ok
  | suppressed (address : String)
  | configurationErr (msg : String)
  | smtpErr (msg : String)
deriving DecidableEq, Repr

/-- `log_queued` for every `to` recipient (fresh log ids from a counter). -/
def logQueuedAll (st : LogState) (email : Email) (idc : Nat) (now : Instant) :
    LogState × Nat :=
  email.to_addrs.foldl
    (fun (acc : LogState × Nat) r =>
      (acc.1.log_queued email.id r.email email.subject acc.2 now, acc.2 + 1))
    (st, idc)

/-- `log_sent` for every `to` recipient. -/
def logSentAll (st : LogState) (email : Email) (message_id : Option String)
    (idc : Nat) (now : Instant) : LogState × Nat :=
  email.to_addrs.foldl
    (fun (acc : LogState × Nat) r =>
      (acc.1.log_sent email.id r.email email.subject "smtp" message_id acc.2 now,
        acc.2 + 1))
    (st, idc)

/-- `log_failed` for every `to` recipient. -/
def logFailedAll (st : LogState) (email : Email) (error : String)
    (idc : Nat) (now : Instant) : LogState × Nat :=
  email.to_addrs.foldl
    (fun (acc : LogState × Nat) r =>
      (acc.1.log_failed email.id r.email email.subject error acc.2 now, acc.2 + 1))
    (st, idc)

/-- `MailerService::send`: first the suppression check over to, cc, bcc (the
first suppressed recipient aborts), then the transport-configured check, then
log queued per recipient, one transport call, and sent or failed logs.  The
transport is a function argument; the `Nat` in the result counts transport
calls made. -/
def MailerService.send (st : LogState)
    (transport : Option (Email → Except String SendResult)) (email : Email)
    (idc : Nat) (now : Instant) : SendOutcome × LogState × Nat :=
  match (email.to_addrs ++ email.cc ++ email.bcc).find?
      (fun r => st.is_suppressed r.email) with
  | some r => (.suppressed r.email, st, 0)
  | none =>
    match transport with
    | none => (.configurationErr "SMTP not configured", st, 0)
    | some tr =>
      let (st, idc) := logQueuedAll st email idc now
      match tr email with
      | .ok send_result =>
        let (st, _) := logSentAll st email send_result.message_id idc now
        (.ok, st, 1)
      | .error e =>
        let (st, _) := logFailedAll st email e idc now
        (.smtpErr e, st, 1)

/-! ## Batch enqueue — src/services/queue.rs, `enqueue_batch` -/

/-- Admission step of the batch loop: `schedule` when the request carries a
send time, else `enqueue`. -/
def batchAdmit (sched : Option Instant) (s : QueueService) (email : Email)
    (nid : Nat) (now : Instant) : Except QueueError QueueItem × QueueService :=
  match sched with
  | some send_at => s.schedule email send_at nid now
  | none => s.enqueue email nid now

/-- The post-admission assignments of `enqueue_batch`: in Rust they mutate only
the local copy of the returned item, so this function is applied to the
returned value and its output never reaches the store. -/
def applyLocalOptions (pr : Option Int) (ma : Option Nat)
    (item : QueueItem) : QueueItem :=
  let item :=
    match pr with
    | some p => { item with priority := p }
    | none => item
  match ma with
  | some m => { item with max_attempts := m }
  | none => item

/-- Loop body of `QueueService::enqueue_batch`: apply the request tags, admit,
and on success run the local-only option assignments before reporting the id.
`index` is the position reported in `BatchError`, `nid` supplies fresh ids. -/
def enqueueBatchGo (sched : Option Instant) (pr : Option Int)
    (ma : Option Nat) (tags : List String) (now : Instant) :
    QueueService → List Email → Nat → Nat → BatchSendResult × QueueService
  | s, [], _, _ => ({ queued := 0, failed := 0, queue_ids := [], errors := [] }, s)
  | s, e :: rest, index, nid =>
    match batchAdmit sched s { e with tags := e.tags ++ tags } nid now with
    | (Except.ok item, s2) =>
      let item := applyLocalOptions pr ma item
      let res := enqueueBatchGo sched pr ma tags now s2 rest (index + 1) (nid + 1)
      ({ res.1 with
          queued := res.1.queued + 1
          queue_ids := item.id :: res.1.queue_ids }, res.2)
    | (Except.error err, s2) =>
      let res := enqueueBatchGo sched pr ma tags now s2 rest (index + 1) (nid + 1)
      ({ res.1 with
          failed := res.1.failed + 1
          errors := { index := index, message := err.toMessage } :: res.1.errors },
        res.2)

/-- `QueueService::enqueue_batch`. -/
def QueueService.enqueue_batch (s : QueueService) (request : BatchSendRequest)
    (nid : Nat) (now : Instant) : BatchSendResult × QueueService :=
  enqueueBatchGo request.scheduled_at request.priority request.max_attempts
    request.tags now s request.emails 0 nid

/-! ## Reachability -/

/-- Queue states reachable from a configured service through the admission and
transition operations named by the spec (enqueue, schedule, claim, markSent,
markFailed, cancel, retry, setPriority). -/
inductive QueueReachable (policy : RetryPolicy) (size : Nat) : QueueService → Prop
  | init :
    QueueReachable policy size ((QueueService.new.with_retry_policy policy).with_max_size size)
  | enqueue {s} (email : Email) (id : Nat) (now : Instant) :
    QueueReachable policy size s → QueueReachable policy size (s.enqueue email id now).2
  | schedule {s} (email : Email) (send_at : Instant) (id : Nat) (now : Instant) :
    QueueReachable policy size s →
      QueueReachable policy size (s.schedule email send_at id now).2
  | claim {s} (id : Nat) (worker : String) (now : Instant) :
    QueueReachable policy size s → QueueReachable policy size (s.claim id worker now).2
  | mark_sent {s} (id : Nat) (now : Instant) :
    QueueReachable policy size s → QueueReachable policy size (s.mark_sent id now).2
  | mark_failed {s} (id : Nat) (error : String) (now : Instant) :
    QueueReachable policy size s →
      QueueReachable policy size (s.mark_failed id error now).2
  | cancel {s} (id : Nat) (now : Instant) :
    QueueReachable policy size s → QueueReachable policy size (s.cancel id now).2
  | retry {s} (id : Nat) (now : Instant) :
    QueueReachable policy size s → QueueReachable policy size (s.retry id now).2
  | set_priority {s} (id : Nat) (priority : Int) :
    QueueReachable policy size s → QueueReachable policy size (s.set_priority id priority).2

/-- Log-service states reachable from the fresh service by recording events and
by the manual suppression operations. -/
inductive LogReachable : LogState → Prop
  | init : LogReachable LogState.new
  | log {st} (entry : EmailLog) (freshId : Nat) (now : Instant) :
    LogReachable st → LogReachable (st.log entry freshId now)
  | suppress {st} (email : String) (reason : SuppressionReason) :
    LogReachable st → LogReachable (st.add_to_suppression email reason)
  | unsuppress {st} (email : String) :
    LogReachable st → LogReachable (st.remove_from_suppression email)

/-- A sequence of `claim` calls on one id with no other transition in between:
collects every result while threading the store. -/
def claimSeq (s : QueueService) (id : Nat) :
    List (String × Instant) → List (Except QueueError QueueItem) × QueueService
  | [] => ([], s)
  | (worker, now) :: rest =>
    let (r, s) := s.claim id worker now
    let (rs, s) := claimSeq s id rest
    (r :: rs, s)

/-- Number of successful results. -/
def countOk (rs : List (Except QueueError QueueItem)) : Nat :=
  (rs.filter (fun r => r.isOk)).length

/-! ## Map lemmas -/

theorem mapGet_mapInsert_self {β : Type} (m : List (String × β)) (k : String) (v : β) :
    mapGet (mapInsert m k v) k = some v := by
  induction m with
  | nil => simp [mapInsert, mapGet]
  | cons p rest ih =>
    obtain ⟨k1, v1⟩ := p
    by_cases h : k1 = k
    · simp [mapInsert, h, mapGet]
    · simp [mapInsert, h, mapGet, ih]

theorem mapInsert_mapInsert_self {β : Type} (m : List (String × β)) (k : String)
    (v w : β) : mapInsert (mapInsert m k v) k w = mapInsert m k w := by
  induction m with
  | nil => simp [mapInsert]
  | cons p rest ih =>
    obtain ⟨k1, v1⟩ := p
    by_cases h : k1 = k
    · simp [mapInsert, h]
    · simp [mapInsert, h, ih]

theorem countKey_eq_zero_of_not_mem {β : Type} {m : List (String × β)} {k : String}
    (h : k ∉ m.map Prod.fst) : countKey m k = 0 := by
  induction m with
  | nil => simp [countKey]
  | cons p rest ih =>
    simp only [List.map_cons, List.mem_cons] at h
    push_neg at h
    have h2 := ih h.2
    simp only [countKey, List.filter_cons] at h2 ⊢
    have : ¬(p.1 = k) := fun hc => h.1 hc.symm
    simp [this, h2]

theorem countKey_mapInsert_nodup {β : Type} {m : List (String × β)} {k : String}
    (v : β) (h : (m.map Prod.fst).Nodup) : countKey (mapInsert m k v) k = 1 := by
  induction m with
  | nil => simp [mapInsert, countKey]
  | cons p rest ih =>
    obtain ⟨k1, v1⟩ := p
    simp only [List.map_cons, List.nodup_cons] at h
    by_cases hk : k1 = k
    · subst hk
      have h0 : countKey rest k1 = 0 := countKey_eq_zero_of_not_mem h.1
      simp only [countKey] at h0
      simp [mapInsert, countKey, List.filter_cons, h0]
    · have ihh := ih h.2
      simp only [countKey] at ihh
      simp [mapInsert, hk, countKey, List.filter_cons, ihh]

theorem mapGet_eq_none_of_not_mem {β : Type} {m : List (String × β)} {k : String}
    (h : k ∉ m.map Prod.fst) : mapGet m k = none := by
  induction m with
  | nil => simp [mapGet]
  | cons p rest ih =>
    simp only [List.map_cons, List.mem_cons] at h
    push_neg at h
    have : ¬(p.1 = k) := fun hc => h.1 hc.symm
    simp [mapGet, this, ih h.2]

theorem mapGet_mapRemove_self {β : Type} {m : List (String × β)} {k : String}
    (h : (m.map Prod.fst).Nodup) : mapGet (mapRemove m k) k = none := by
  induction m with
  | nil => simp [mapRemove, mapGet]
  | cons p rest ih =>
    obtain ⟨k1, v1⟩ := p
    simp only [List.map_cons, List.nodup_cons] at h
    by_cases hk : k1 = k
    · subst hk
      simp only [mapRemove, if_pos rfl]
      exact mapGet_eq_none_of_not_mem h.1
    · simp [mapRemove, hk, mapGet, ih h.2]

theorem imapGet_mem {β : Type} {m : List (Nat × β)} {k : Nat} {v : β}
    (h : imapGet m k = some v) : (k, v) ∈ m := by
  induction m with
  | nil => simp [imapGet] at h
  | cons p rest ih =>
    obtain ⟨k1, v1⟩ := p
    by_cases hk : k1 = k
    · subst hk
      have h' : some v1 = some v := by simpa [imapGet] using h
      obtain rfl := Option.some.inj h'
      exact List.mem_cons_self _ _
    · simp only [imapGet, if_neg hk] at h
      exact List.mem_cons_of_mem _ (ih h)

theorem mem_imapInsert {β : Type} {m : List (Nat × β)} {k : Nat} {v : β} {p : Nat × β}
    (h : p ∈ imapInsert m k v) : p = (k, v) ∨ p ∈ m := by
  induction m with
  | nil => simpa [imapInsert] using h
  | cons q rest ih =>
    obtain ⟨k1, v1⟩ := q
    by_cases hk : k1 = k
    · simp only [imapInsert, if_pos hk, List.mem_cons] at h
      rcases h with h | h
      · exact Or.inl h
      · exact Or.inr (List.mem_cons_of_mem _ h)
    · simp only [imapInsert, if_neg hk, List.mem_cons] at h
      rcases h with h | h
      · exact Or.inr (by simp [h])
      · rcases ih h with h2 | h2
        · exact Or.inl h2
        · exact Or.inr (List.mem_cons_of_mem _ h2)

theorem imapGet_imapInsert_self {β : Type} (m : List (Nat × β)) (k : Nat) (v : β) :
    imapGet (imapInsert m k v) k = some v := by
  induction m with
  | nil => simp [imapInsert, imapGet]
  | cons p rest ih =>
    obtain ⟨k1, v1⟩ := p
    by_cases h : k1 = k
    · simp [imapInsert, h, imapGet]
    · simp [imapInsert, h, imapGet, ih]

/-! ## Concrete sample inputs used by witnesses and counterexamples -/

/-- A minimal valid email value. -/
def sampleEmail (n : Nat) : Email :=
  { id := n
    from_addr := { email := "sender@x.com" }
    to_addrs := [{ email := "rcpt@x.com" }]
    subject := "subject"
    created_at := 0 }

/-- A freshly admitted queue item. -/
def sampleItem : QueueItem := QueueItem.new (sampleEmail 0) 1 0

/-! ## Claim C5 — markFailed contract -/

/-- Claim C5: markFailed sets last_error and clears worker_id; below the
attempt ceiling it defers with backoff `60 * 2 ^ min(attempts, 5)` seconds
(hence at most 1920), otherwise it fails with completed_at = now; the
transition is identical for any two error texts except for the stored
last_error (so isRetryable is never consulted), and the service returns
NotFound for an absent id. -/
theorem c5_mark_failed_contract (it : QueueItem) (e e2 : String) (now : Instant)
    (s : QueueService) (id : Nat) :
    ((it.mark_failed e now).last_error = some e
      ∧ (it.mark_failed e now).worker_id = none)
    ∧ (it.attempts < it.max_attempts →
        (it.mark_failed e now).status = QueueStatus.Deferred
        ∧ (it.mark_failed e now).next_retry_at
            = some (now + 60 * 2 ^ min it.attempts 5)
        ∧ (60 * 2 ^ min it.attempts 5 : Int) ≤ 1920)
    ∧ (it.max_attempts ≤ it.attempts →
        (it.mark_failed e now).status = QueueStatus.Failed
        ∧ (it.mark_failed e now).completed_at = some now)
    ∧ it.mark_failed e now = { it.mark_failed e2 now with last_error := some e }
    ∧ (imapGet s.items id = none →
        s.mark_failed id e now = (.error (.NotFound (toString id)), s)) := by
  have hbound : (60 * 2 ^ min it.attempts 5 : Int) ≤ 1920 := by
    have h2 : (2 : Int) ^ min it.attempts 5 ≤ 2 ^ 5 :=
      pow_le_pow_right₀ (by norm_num) (min_le_right _ 5)
    linarith
  by_cases h : it.attempts < it.max_attempts
  · refine ⟨?_, ?_, ?_, ?_, ?_⟩
    · simp [QueueItem.mark_failed, QueueItem.can_retry, h]
    · intro _
      exact ⟨by simp [QueueItem.mark_failed, QueueItem.can_retry, h],
        by simp [QueueItem.mark_failed, QueueItem.can_retry, h], hbound⟩
    · intro hge
      omega
    · simp [QueueItem.mark_failed, QueueItem.can_retry, h]
    · intro hn
      simp [QueueService.mark_failed, hn]
  · refine ⟨?_, ?_, ?_, ?_, ?_⟩
    · simp [QueueItem.mark_failed, QueueItem.can_retry, h]
    · intro hlt
      exact absurd hlt h
    · intro _
      exact ⟨by simp [QueueItem.mark_failed, QueueItem.can_retry, h],
        by simp [QueueItem.mark_failed, QueueItem.can_retry, h]⟩
    · simp [QueueItem.mark_failed, QueueItem.can_retry, h]
    · intro hn
      simp [QueueService.mark_failed, hn]

/-- Claim C5 witness: a fresh item (0 of 3 attempts) deferred with backoff
60 seconds from now = 100. -/
theorem c5_mark_failed_contract_witness :
    sampleItem.attempts < sampleItem.max_attempts
    ∧ (sampleItem.mark_failed "boom" 100).status = QueueStatus.Deferred
    ∧ (sampleItem.mark_failed "boom" 100).next_retry_at
        = some (100 + 60 * 2 ^ min sampleItem.attempts 5) :=
  ⟨by decide,
    ((c5_mark_failed_contract sampleItem "boom" "x" 100 QueueService.new 1).2.1
      (by decide)).1,
    ((c5_mark_failed_contract sampleItem "boom" "x" 100 QueueService.new 1).2.1
      (by decide)).2.1⟩

/-! ## Claim C9 — message construction invariant -/

/-- Claim C9 counterexample: `Email::new` is a construction path that yields a
message with one recipient but no text and no HTML body, with no validation
error raised, so not every constructed Email satisfies the body half of the
invariant. -/
theorem c9_counterexample :
    (Email.new { email := "a@x.com" } { email := "b@x.com" } "hi" 0 0).recipient_count = 1
    ∧ (Email.new { email := "a@x.com" } { email := "b@x.com" } "hi" 0 0).has_body = false :=
  ⟨rfl, rfl⟩

/-- Claim C9 amended: `EmailBuilder::build` enforces the invariant — a built
Email has a recipient and a body, and building with no recipients or with
neither body fails with a validation error; `Email::new` always has exactly
one recipient but performs no body validation. -/
theorem c9_email_construction (b : EmailBuilder) (id : Nat) (now : Instant) :
    (∀ e, b.build id now = Except.ok e → 1 ≤ e.recipient_count ∧ e.has_body = true)
    ∧ (b.to_addrs.isEmpty ∧ b.cc.isEmpty ∧ b.bcc.isEmpty →
        ∃ msg, b.build id now = Except.error msg)
    ∧ (b.text_body = none ∧ b.html_body = none →
        ∃ msg, b.build id now = Except.error msg)
    ∧ ∀ (fa r : EmailAddress) (subject : String) (id2 : Nat) (now2 : Instant),
        (Email.new fa r subject id2 now2).recipient_count = 1 := by
  refine ⟨?_, ?_, ?_, ?_⟩
  · intro e he
    unfold EmailBuilder.build at he
    cases hf : b.from_addr with
    | none => simp [hf] at he
    | some fa =>
      cases hs : b.subject with
      | none => simp [hf, hs] at he
      | some subj =>
        simp only [hf, hs] at he
        by_cases hrec : (b.to_addrs.isEmpty && b.cc.isEmpty && b.bcc.isEmpty) = true
        · rw [if_pos hrec] at he
          simp at he
        · rw [if_neg hrec] at he
          by_cases hbody : (b.text_body.isNone && b.html_body.isNone) = true
          · rw [if_pos hbody] at he
            simp at he
          · rw [if_neg hbody] at he
            obtain rfl : _ = e := Except.ok.inj he
            constructor
            · have hr : ¬(b.to_addrs = [] ∧ b.cc = [] ∧ b.bcc = []) := by
                simpa [List.isEmpty_iff] using hrec
              simp only [Email.recipient_count]
              by_cases ht : b.to_addrs = []
              · by_cases hc : b.cc = []
                · have hb2 : b.bcc ≠ [] := fun hb2 => hr ⟨ht, hc, hb2⟩
                  have := List.length_pos.mpr hb2
                  omega
                · have := List.length_pos.mpr hc
                  omega
              · have := List.length_pos.mpr ht
                omega
            · have hb : ¬(b.text_body = none ∧ b.html_body = none) := by
                simpa [Option.isNone_iff_eq_none] using hbody
              simp only [Email.has_body, Bool.or_eq_true, Option.isSome_iff_ne_none]
              by_cases ht : b.text_body = none
              · exact Or.inr (fun hh => hb ⟨ht, hh⟩)
              · exact Or.inl ht
  · intro ⟨h1, h2, h3⟩
    unfold EmailBuilder.build
    cases b.from_addr with
    | none => exact ⟨_, rfl⟩
    | some fa =>
      cases b.subject with
      | none => exact ⟨_, rfl⟩
      | some subj => simp [h1, h2, h3]
  · intro ⟨h1, h2⟩
    unfold EmailBuilder.build
    cases b.from_addr with
    | none => exact ⟨_, rfl⟩
    | some fa =>
      cases b.subject with
      | none => exact ⟨_, rfl⟩
      | some subj =>
        by_cases hr : b.to_addrs.isEmpty && b.cc.isEmpty && b.bcc.isEmpty
        · simp [hr]
        · simp [hr, h1, h2]
  · intro fa r subject id2 now2
    simp [Email.new, Email.recipient_count]

/-- A builder carrying a from address, a subject, one recipient and a text
body. -/
def sampleBuilder : EmailBuilder :=
  { from_addr := some { email := "s@x.com" }
    subject := some "s"
    to_addrs := [{ email := "r@x.com" }]
    text_body := some "hello" }

/-- The email `sampleBuilder` builds. -/
def sampleBuiltEmail : Email :=
  { id := 0
    from_addr := { email := "s@x.com" }
    to_addrs := [{ email := "r@x.com" }]
    subject := "s"
    text_body := some "hello"
    created_at := 0 }

/-- Claim C9 witness: the sample builder produces a valid message. -/
theorem c9_email_construction_witness :
    1 ≤ sampleBuiltEmail.recipient_count ∧ sampleBuiltEmail.has_body = true :=
  (c9_email_construction sampleBuilder 0 0).1 sampleBuiltEmail (by rfl)

/-! ## Claim C7 — rate derivation -/

/-- The counting step never writes a rate field. -/
theorem countEvent_preserves_rates (s : LogStats) (ev : EmailEvent) :
    (s.countEvent ev).delivery_rate = s.delivery_rate
    ∧ (s.countEvent ev).open_rate = s.open_rate
    ∧ (s.countEvent ev).click_rate = s.click_rate
    ∧ (s.countEvent ev).bounce_rate = s.bounce_rate
    ∧ (s.countEvent ev).spam_rate = s.spam_rate := by
  cases ev <;> simp [LogStats.countEvent]

/-- The stats counting fold never writes a rate field. -/
theorem stats_fold_preserves_rates (logs : List EmailLog) (fromI toI : Instant)
    (init : LogStats) :
    (logs.foldl
      (fun s log =>
        if log.timestamp < fromI || toI < log.timestamp then s
        else s.countEvent log.event) init).delivery_rate = init.delivery_rate
    ∧ (logs.foldl
      (fun s log =>
        if log.timestamp < fromI || toI < log.timestamp then s
        else s.countEvent log.event) init).open_rate = init.open_rate
    ∧ (logs.foldl
      (fun s log =>
        if log.timestamp < fromI || toI < log.timestamp then s
        else s.countEvent log.event) init).click_rate = init.click_rate
    ∧ (logs.foldl
      (fun s log =>
        if log.timestamp < fromI || toI < log.timestamp then s
        else s.countEvent log.event) init).bounce_rate = init.bounce_rate
    ∧ (logs.foldl
      (fun s log =>
        if log.timestamp < fromI || toI < log.timestamp then s
        else s.countEvent log.event) init).spam_rate = init.spam_rate := by
  induction logs generalizing init with
  | nil => simp
  | cons l rest ih =>
    simp only [List.foldl_cons]
    by_cases h : l.timestamp < fromI || toI < l.timestamp
    · simpa [h] using ih init
    · have step := countEvent_preserves_rates init l.event
      have tail := ih (init.countEvent l.event)
      simp only [h, if_neg, Bool.false_eq_true, not_false_iff] at *
      exact ⟨tail.1.trans step.1, (tail.2.1).trans step.2.1,
        (tail.2.2.1).trans step.2.2.1, (tail.2.2.2.1).trans step.2.2.2.1,
        (tail.2.2.2.2).trans step.2.2.2.2⟩

/-- Entries entirely outside the window leave the fold at its initial value. -/
theorem stats_fold_outside (logs : List EmailLog) (fromI toI : Instant)
    (init : LogStats)
    (h : ∀ l ∈ logs, l.timestamp < fromI ∨ toI < l.timestamp) :
    logs.foldl
      (fun s log =>
        if log.timestamp < fromI || toI < log.timestamp then s
        else s.countEvent log.event) init = init := by
  induction logs with
  | nil => simp
  | cons l rest ih =>
    have hl : (l.timestamp < fromI || toI < l.timestamp) = true := by
      rcases h l (List.mem_cons_self _ _) with h1 | h1 <;> simp [h1]
    simp only [List.foldl_cons, hl, if_pos]
    exact ih (fun x hx => h x (List.mem_cons_of_mem _ hx))

/-- `calculate_rates` on a value whose rates are zero: the totals are
unchanged, a rate is zero when its denominator is zero and is the percentage
ratio otherwise. -/
theorem calculate_rates_spec (base : LogStats)
    (h0 : base.delivery_rate = 0 ∧ base.open_rate = 0 ∧ base.click_rate = 0
      ∧ base.bounce_rate = 0 ∧ base.spam_rate = 0) :
    (base.calculate_rates.total_sent = base.total_sent
      ∧ base.calculate_rates.total_delivered = base.total_delivered
      ∧ base.calculate_rates.total_opened = base.total_opened
      ∧ base.calculate_rates.total_bounced = base.total_bounced
      ∧ base.calculate_rates.total_clicked = base.total_clicked
      ∧ base.calculate_rates.total_spam_complaints = base.total_spam_complaints)
    ∧ (base.total_sent = 0 →
        base.calculate_rates.delivery_rate = 0
        ∧ base.calculate_rates.bounce_rate = 0
        ∧ base.calculate_rates.spam_rate = 0)
    ∧ (base.total_delivered = 0 → base.calculate_rates.open_rate = 0)
    ∧ (base.total_opened = 0 → base.calculate_rates.click_rate = 0)
    ∧ (0 < base.total_sent →
        base.calculate_rates.delivery_rate
          = ((base.total_delivered : Rat) / (base.total_sent : Rat)) * 100
        ∧ base.calculate_rates.bounce_rate
          = ((base.total_bounced : Rat) / (base.total_sent : Rat)) * 100
        ∧ base.calculate_rates.spam_rate
          = ((base.total_spam_complaints : Rat) / (base.total_sent : Rat)) * 100)
    ∧ (0 < base.total_delivered →
        base.calculate_rates.open_rate
          = ((base.total_opened : Rat) / (base.total_delivered : Rat)) * 100)
    ∧ (0 < base.total_opened →
        base.calculate_rates.click_rate
          = ((base.total_clicked : Rat) / (base.total_opened : Rat)) * 100) := by
  obtain ⟨hd, ho, hc, hb, hs⟩ := h0
  by_cases h1 : 0 < base.total_sent
    <;> by_cases h2 : 0 < base.total_delivered
    <;> by_cases h3 : 0 < base.total_opened
    <;> simp [LogStats.calculate_rates, h1, h2, h3, hd, ho, hc, hb, hs]
    <;> omega

/-- The queue-stats counting fold never writes the success rate. -/
theorem queue_fold_preserves_success_rate (items : List QueueItem)
    (day_ago : Instant) (init : QueueStats) :
    (items.foldl (fun st it => st.countItem it day_ago) init).success_rate
      = init.success_rate := by
  induction items generalizing init with
  | nil => simp
  | cons it rest ih =>
    simp only [List.foldl_cons]
    have step : (init.countItem it day_ago).success_rate = init.success_rate := by
      cases h : it.status <;> simp [QueueStats.countItem, h] <;> split <;> rfl
    rw [ih, step]

/-- Queue stats: success rate is 0 with no completed items and the percentage
ratio otherwise. -/
theorem queue_stats_spec (s : QueueService) (now : Instant) :
    ((s.stats now).sent + (s.stats now).failed = 0 → (s.stats now).success_rate = 0)
    ∧ (0 < (s.stats now).sent + (s.stats now).failed →
        (s.stats now).success_rate
          = (((s.stats now).sent : Rat)
              / (((s.stats now).sent + (s.stats now).failed : Nat) : Rat)) * 100) := by
  have hq := queue_fold_preserves_success_rate (s.items.map Prod.snd)
    (now - 24 * 3600) {}
  simp only [QueueService.stats]
  set base := (s.items.map Prod.snd).foldl
    (fun st it => st.countItem it (now - 24 * 3600)) ({} : QueueStats) with hbase
  by_cases h : 0 < base.sent + base.failed
  · rw [if_pos h]
    constructor
    · intro h0
      simp only at h0
      omega
    · intro _
      simp
  · rw [if_neg h]
    constructor
    · intro _
      simpa using hq
    · intro hpos
      omega

/-- Delivery stats: each rate is 0 when its denominator is 0 and the
percentage ratio otherwise; a window containing no entry yields all rates 0. -/
theorem log_stats_spec (st : LogState) (from_date to_date : Option Instant)
    (now : Instant) :
    ((st.stats from_date to_date now).total_sent = 0 →
        (st.stats from_date to_date now).delivery_rate = 0
        ∧ (st.stats from_date to_date now).bounce_rate = 0
        ∧ (st.stats from_date to_date now).spam_rate = 0)
    ∧ ((st.stats from_date to_date now).total_delivered = 0 →
        (st.stats from_date to_date now).open_rate = 0)
    ∧ ((st.stats from_date to_date now).total_opened = 0 →
        (st.stats from_date to_date now).click_rate = 0)
    ∧ (0 < (st.stats from_date to_date now).total_sent →
        (st.stats from_date to_date now).delivery_rate
          = (((st.stats from_date to_date now).total_delivered : Rat)
              / ((st.stats from_date to_date now).total_sent : Rat)) * 100)
    ∧ (0 < (st.stats from_date to_date now).total_delivered →
        (st.stats from_date to_date now).open_rate
          = (((st.stats from_date to_date now).total_opened : Rat)
              / ((st.stats from_date to_date now).total_delivered : Rat)) * 100)
    ∧ ((∀ l ∈ st.logs,
          l.timestamp < from_date.getD (now - 30 * 24 * 3600)
            ∨ to_date.getD now < l.timestamp) →
        (st.stats from_date to_date now).delivery_rate = 0
        ∧ (st.stats from_date to_date now).open_rate = 0
        ∧ (st.stats from_date to_date now).click_rate = 0
        ∧ (st.stats from_date to_date now).bounce_rate = 0
        ∧ (st.stats from_date to_date now).spam_rate = 0) := by
  simp only [LogState.stats]
  set fromI := from_date.getD (now - 30 * 24 * 3600) with hfrom
  set toI := to_date.getD now with hto
  have hfold := stats_fold_preserves_rates st.logs fromI toI {}
  set base := st.logs.foldl
    (fun s log =>
      if log.timestamp < fromI || toI < log.timestamp then s
      else s.countEvent log.event) ({} : LogStats) with hbase
  have hcalc := calculate_rates_spec base
    ⟨hfold.1, hfold.2.1, hfold.2.2.1, hfold.2.2.2.1, hfold.2.2.2.2⟩
  refine ⟨?_, ?_, ?_, ?_, ?_, ?_⟩
  · intro h0
    exact hcalc.2.1 (hcalc.1.1.symm.trans h0)
  · intro h0
    exact hcalc.2.2.1 (hcalc.1.2.1.symm.trans h0)
  · intro h0
    exact hcalc.2.2.2.1 (hcalc.1.2.2.1.symm.trans h0)
  · intro h0
    rw [hcalc.1.1, hcalc.1.2.1]
    exact (hcalc.2.2.2.2.1 (by rw [hcalc.1.1] at h0; exact h0)).1
  · intro h0
    rw [hcalc.1.2.1, hcalc.1.2.2.1]
    exact hcalc.2.2.2.2.2.1 (by rw [hcalc.1.2.1] at h0; exact h0)
  · intro hwin
    have hb : base = ({} : LogStats) := stats_fold_outside st.logs fromI toI {} hwin
    rw [hb]
    have hz := calculate_rates_spec ({} : LogStats) ⟨rfl, rfl, rfl, rfl, rfl⟩
    exact ⟨(hz.2.1 rfl).1, hz.2.2.1 rfl, hz.2.2.2.1 rfl, (hz.2.1 rfl).2.1,
      (hz.2.1 rfl).2.2⟩

/-- Claim C7: queue stats report success rate 0 when no item completed
(sent + failed = 0) and the percentage ratio otherwise; delivery stats report
every rate as 0 when its denominator is 0 and the percentage ratio otherwise;
on a window containing no log entry every rate is 0 — rates are exact
rationals, never a division by zero. -/
theorem c7_rates_no_division_by_zero (s : QueueService) (now : Instant)
    (st : LogState) (from_date to_date : Option Instant) :
    ((s.stats now).sent + (s.stats now).failed = 0 → (s.stats now).success_rate = 0)
    ∧ (0 < (s.stats now).sent + (s.stats now).failed →
        (s.stats now).success_rate
          = (((s.stats now).sent : Rat)
              / (((s.stats now).sent + (s.stats now).failed : Nat) : Rat)) * 100)
    ∧ ((st.stats from_date to_date now).total_sent = 0 →
        (st.stats from_date to_date now).delivery_rate = 0
        ∧ (st.stats from_date to_date now).bounce_rate = 0
        ∧ (st.stats from_date to_date now).spam_rate = 0)
    ∧ ((st.stats from_date to_date now).total_delivered = 0 →
        (st.stats from_date to_date now).open_rate = 0)
    ∧ ((st.stats from_date to_date now).total_opened = 0 →
        (st.stats from_date to_date now).click_rate = 0)
    ∧ (0 < (st.stats from_date to_date now).total_sent →
        (st.stats from_date to_date now).delivery_rate
          = (((st.stats from_date to_date now).total_delivered : Rat)
              / ((st.stats from_date to_date now).total_sent : Rat)) * 100)
    ∧ (0 < (st.stats from_date to_date now).total_delivered →
        (st.stats from_date to_date now).open_rate
          = (((st.stats from_date to_date now).total_opened : Rat)
              / ((st.stats from_date to_date now).total_delivered : Rat)) * 100)
    ∧ ((∀ l ∈ st.logs,
          l.timestamp < from_date.getD (now - 30 * 24 * 3600)
            ∨ to_date.getD now < l.timestamp) →
        (st.stats from_date to_date now).delivery_rate = 0
        ∧ (st.stats from_date to_date now).open_rate = 0
        ∧ (st.stats from_date to_date now).click_rate = 0
        ∧ (st.stats from_date to_date now).bounce_rate = 0
        ∧ (st.stats from_date to_date now).spam_rate = 0) := by
  obtain ⟨q1, q2⟩ := queue_stats_spec s now
  obtain ⟨l1, l2, l3, l4, l5, l6⟩ := log_stats_spec st from_date to_date now
  exact ⟨q1, q2, l1, l2, l3, l4, l5, l6⟩

/-- Claim C7 witness: the empty service and an empty log window report rate 0. -/
theorem c7_rates_no_division_by_zero_witness :
    (QueueService.new.stats 0).success_rate = 0
    ∧ (LogState.new.stats none none 0).delivery_rate = 0 :=
  ⟨(c7_rates_no_division_by_zero QueueService.new 0 LogState.new none none).1
      (by decide),
    ((c7_rates_no_division_by_zero QueueService.new 0 LogState.new none none).2.2.2.2.2.2.2
      (fun l hl => absurd hl (List.not_mem_nil l))).1⟩

/-! ## Claim C8 — suppression algebra -/

/-- Claim C8: suppressing twice is the same state as suppressing once (and with
distinct hash-map keys leaves exactly one entry for the address); unsuppress
followed by isSuppressed is false; suppress, unsuppress and isSuppressed only
depend on the lowercased address, so suppressing any case variant suppresses
every case variant. -/
theorem c8_suppression_case_insensitive (st : LogState) (x y : String)
    (r : SuppressionReason) :
    (st.add_to_suppression x r).add_to_suppression x r = st.add_to_suppression x r
    ∧ ((st.suppression_list.map Prod.fst).Nodup →
        countKey (st.add_to_suppression x r).suppression_list (lowerStr x) = 1)
    ∧ ((st.suppression_list.map Prod.fst).Nodup →
        (st.remove_from_suppression x).is_suppressed x = false)
    ∧ (lowerStr x = lowerStr y →
        st.add_to_suppression x r = st.add_to_suppression y r
        ∧ st.remove_from_suppression x = st.remove_from_suppression y
        ∧ st.is_suppressed x = st.is_suppressed y)
    ∧ (lowerStr x = lowerStr y →
        (st.add_to_suppression x r).is_suppressed y = true) := by
  refine ⟨?_, ?_, ?_, ?_, ?_⟩
  · simp [LogState.add_to_suppression, mapInsert_mapInsert_self]
  · intro h
    simp only [LogState.add_to_suppression]
    exact countKey_mapInsert_nodup r h
  · intro h
    simp [LogState.is_suppressed, LogState.remove_from_suppression,
      mapGet_mapRemove_self h]
  · intro hxy
    refine ⟨?_, ?_, ?_⟩
    · simp [LogState.add_to_suppression, hxy]
    · simp [LogState.remove_from_suppression, hxy]
    · simp [LogState.is_suppressed, hxy]
  · intro hxy
    simp [LogState.is_suppressed, LogState.add_to_suppression, ← hxy,
      mapGet_mapInsert_self]

/-- The state after manually suppressing one mixed-case address. -/
def suppressedOnce : LogState :=
  LogState.new.add_to_suppression "Bad@X.com" SuppressionReason.Manual

/-- Claim C8 witness: a second suppress of the same address leaves one entry,
lookups see every case variant, unsuppress clears it. -/
theorem c8_suppression_case_insensitive_witness :
    countKey ((suppressedOnce.add_to_suppression "Bad@X.com"
        SuppressionReason.Manual).suppression_list) (lowerStr "Bad@X.com") = 1
    ∧ (LogState.new.add_to_suppression "Bad@X.com"
        SuppressionReason.Manual).is_suppressed "bad@x.COM" = true
    ∧ (suppressedOnce.remove_from_suppression "Bad@X.com").is_suppressed
        "Bad@X.com" = false :=
  ⟨(c8_suppression_case_insensitive suppressedOnce "Bad@X.com" "Bad@X.com"
      SuppressionReason.Manual).2.1 (by decide),
    (c8_suppression_case_insensitive LogState.new "Bad@X.com" "bad@x.COM"
      SuppressionReason.Manual).2.2.2.2 (by decide),
    (c8_suppression_case_insensitive suppressedOnce "Bad@X.com" "Bad@X.com"
      SuppressionReason.Manual).2.2.1 (by decide)⟩

/-! ## Claim C6 — suppression gate in the send path -/

/-- Claim C6: when some recipient across to, cc and bcc is suppressed, send
returns Suppressed with the first such address, leaves the log state untouched
and makes zero transport calls; with no suppressed recipient the check rejects
nothing. -/
theorem c6_send_suppression_gate (st : LogState)
    (transport : Option (Email → Except String SendResult)) (email : Email)
    (idc : Nat) (now : Instant) :
    (∀ r, (email.to_addrs ++ email.cc ++ email.bcc).find?
        (fun a => st.is_suppressed a.email) = some r →
      MailerService.send st transport email idc now
        = (SendOutcome.suppressed r.email, st, 0))
    ∧ ((∀ r ∈ email.to_addrs ++ email.cc ++ email.bcc,
          st.is_suppressed r.email = false) →
        ∀ a, (MailerService.send st transport email idc now).1
          ≠ SendOutcome.suppressed a) := by
  constructor
  · intro r hr
    simp only [MailerService.send]
    rw [hr]
  · intro hall a
    have hn : (email.to_addrs ++ email.cc ++ email.bcc).find?
        (fun x => st.is_suppressed x.email) = none :=
      List.find?_eq_none.mpr (fun x hx => by simp [hall x hx])
    simp only [MailerService.send, hn]
    cases transport with
    | none => simp
    | some tr =>
      cases htr : tr email with
      | ok res => simp [htr]
      | error e => simp [htr]

/-- A transport that would accept anything (used to show it is never called). -/
def acceptAllTransport : Email → Except String SendResult :=
  fun _ => Except.ok { message_id := some "mid", response := "250 ok" }

/-- A message addressed to the suppressed recipient. -/
def c6Email : Email :=
  { id := 9
    from_addr := { email := "s@x.com" }
    to_addrs := [{ email := "bad@x.com" }]
    subject := "s"
    text_body := some "t"
    created_at := 0 }

/-- Claim C6 witness: sending to a suppressed address yields Suppressed,
unchanged logs and zero transport calls even with a working transport. -/
theorem c6_send_suppression_gate_witness :
    MailerService.send suppressedOnce (some acceptAllTransport) c6Email 0 5
      = (SendOutcome.suppressed "bad@x.com", suppressedOnce, 0) :=
  (c6_send_suppression_gate suppressedOnce (some acceptAllTransport) c6Email
    0 5).1 { email := "bad@x.com" } (by decide)

/-! ## Claim C10 — batch options never reach the store -/

/-- `enqueue` leaves the retry policy alone and only adds an item with default
priority 0 and the policy max_attempts. -/
theorem enqueue_store_inv (s : QueueService) (email : Email) (id : Nat)
    (now : Instant) :
    (s.enqueue email id now).2.retry_policy = s.retry_policy
    ∧ ∀ p ∈ (s.enqueue email id now).2.items,
        p ∈ s.items
        ∨ (p.2.priority = 0 ∧ p.2.max_attempts = s.retry_policy.max_attempts) := by
  unfold QueueService.enqueue
  by_cases h : s.items.length ≥ s.max_size
  · simp only [if_pos h]
    exact ⟨trivial, fun p hp => Or.inl hp⟩
  · simp only [if_neg h]
    refine ⟨trivial, fun p hp => ?_⟩
    rcases mem_imapInsert hp with h1 | h1
    · subst h1
      exact Or.inr ⟨rfl, rfl⟩
    · exact Or.inl h1

/-- `schedule` leaves the retry policy alone and only adds an item with default
priority 0 and the policy max_attempts. -/
theorem schedule_store_inv (s : QueueService) (email : Email) (send_at : Instant)
    (id : Nat) (now : Instant) :
    (s.schedule email send_at id now).2.retry_policy = s.retry_policy
    ∧ ∀ p ∈ (s.schedule email send_at id now).2.items,
        p ∈ s.items
        ∨ (p.2.priority = 0 ∧ p.2.max_attempts = s.retry_policy.max_attempts) := by
  unfold QueueService.schedule
  by_cases h : s.items.length ≥ s.max_size
  · simp only [if_pos h]
    exact ⟨trivial, fun p hp => Or.inl hp⟩
  · simp only [if_neg h]
    refine ⟨trivial, fun p hp => ?_⟩
    rcases mem_imapInsert hp with h1 | h1
    · subst h1
      exact Or.inr ⟨rfl, rfl⟩
    · exact Or.inl h1

/-- The local option assignments never change the item id. -/
theorem applyLocalOptions_id (pr : Option Int) (ma : Option Nat)
    (item : QueueItem) : (applyLocalOptions pr ma item).id = item.id := by
  cases pr <;> cases ma <;> rfl

/-- With no options the local assignments are the identity. -/
theorem applyLocalOptions_none (item : QueueItem) :
    applyLocalOptions none none item = item := rfl

/-- The batch loop output (results and store alike) does not depend on the
priority and max_attempts request options: they only touch a local copy. -/
theorem enqueueBatchGo_ignores_options (sched : Option Instant)
    (pr : Option Int) (ma : Option Nat) (tags : List String) (now : Instant)
    (emails : List Email) :
    ∀ s index nid,
      enqueueBatchGo sched pr ma tags now s emails index nid
        = enqueueBatchGo sched none none tags now s emails index nid := by
  induction emails with
  | nil => intro s i n; rfl
  | cons e rest ih =>
    intro s i n
    simp only [enqueueBatchGo]
    cases hm : batchAdmit sched s { e with tags := e.tags ++ tags } n now with
    | mk result s2 =>
      cases result with
      | ok item =>
        simp only [ih s2 (i + 1) (n + 1), applyLocalOptions_id,
          applyLocalOptions_none]
      | error err =>
        simp only [ih s2 (i + 1) (n + 1)]

/-- `batchAdmit` keeps the retry policy and only adds default-shaped items. -/
theorem batchAdmit_store_inv (sched : Option Instant) (s : QueueService)
    (email : Email) (nid : Nat) (now : Instant) :
    (batchAdmit sched s email nid now).2.retry_policy = s.retry_policy
    ∧ ∀ p ∈ (batchAdmit sched s email nid now).2.items,
        p ∈ s.items
        ∨ (p.2.priority = 0 ∧ p.2.max_attempts = s.retry_policy.max_attempts) := by
  cases sched with
  | some send_at => exact schedule_store_inv s email send_at nid now
  | none => exact enqueue_store_inv s email nid now

/-- Every item in the store after the batch loop was already there or carries
default priority 0 and the policy max_attempts. -/
theorem enqueueBatchGo_store_items (sched : Option Instant) (pr : Option Int)
    (ma : Option Nat) (tags : List String) (now : Instant) (emails : List Email) :
    ∀ s index nid p,
      p ∈ (enqueueBatchGo sched pr ma tags now s emails index nid).2.items →
      p ∈ s.items
      ∨ (p.2.priority = 0 ∧ p.2.max_attempts = s.retry_policy.max_attempts) := by
  induction emails with
  | nil =>
    intro s i n p hp
    exact Or.inl hp
  | cons e rest ih =>
    intro s i n p hp
    simp only [enqueueBatchGo] at hp
    have hstep := batchAdmit_store_inv sched s { e with tags := e.tags ++ tags } n now
    cases hm : batchAdmit sched s { e with tags := e.tags ++ tags } n now with
    | mk result s2 =>
      rw [hm] at hp hstep
      have htail : p ∈ s2.items
          ∨ (p.2.priority = 0 ∧ p.2.max_attempts = s2.retry_policy.max_attempts) := by
        cases result with
        | ok item => exact ih s2 (i + 1) (n + 1) p hp
        | error err => exact ih s2 (i + 1) (n + 1) p hp
      rcases htail with h1 | h1
      · exact hstep.2 p h1
      · exact Or.inr ⟨h1.1, by rw [h1.2, hstep.1]⟩

/-- Claim C10: the batch request options priority and max_attempts have no
effect at all — neither on the stored items nor on the returned result — and
every item the batch adds to the store keeps default priority 0 and the retry
policy max_attempts. -/
theorem c10_enqueue_batch_options_no_effect (s : QueueService)
    (request : BatchSendRequest) (nid : Nat) (now : Instant) :
    s.enqueue_batch request nid now
      = s.enqueue_batch
          { request with priority := none, max_attempts := none } nid now
    ∧ ∀ p ∈ (s.enqueue_batch request nid now).2.items,
        p ∈ s.items
        ∨ (p.2.priority = 0 ∧ p.2.max_attempts = s.retry_policy.max_attempts) := by
  constructor
  · simp only [QueueService.enqueue_batch]
    exact enqueueBatchGo_ignores_options request.scheduled_at request.priority
      request.max_attempts request.tags now request.emails s 0 nid
  · intro p hp
    exact enqueueBatchGo_store_items request.scheduled_at request.priority
      request.max_attempts request.tags now request.emails s 0 nid p hp

/-- A batch request asking for priority 9 and max_attempts 7. -/
def sampleBatchRequest : BatchSendRequest :=
  { emails := [sampleEmail 0], priority := some 9, max_attempts := some 7 }

/-- Claim C10 witness: the item a one-email batch stores, with priority 9 and
max_attempts 7 requested, still has priority 0 and max_attempts 3. -/
theorem c10_enqueue_batch_options_no_effect_witness :
    ((QueueItem.new (sampleEmail 0) 5 0).with_max_attempts 3).priority = 0
    ∧ ((QueueItem.new (sampleEmail 0) 5 0).with_max_attempts 3).max_attempts
        = QueueService.new.retry_policy.max_attempts :=
  ((c10_enqueue_batch_options_no_effect QueueService.new sampleBatchRequest 5 0).2
      (5, (QueueItem.new (sampleEmail 0) 5 0).with_max_attempts 3)
      (by decide)).resolve_left
    (fun h => absurd h (by decide))

/-! ## Claim C3 — eligible-item selection -/

/-- `pendingCompare` is transitive. -/
theorem pendingCompare_trans (a b c : QueueItem) :
    pendingCompare a b = true → pendingCompare b c = true →
    pendingCompare a c = true := by
  intro hab hbc
  simp only [pendingCompare, Bool.or_eq_true, Bool.and_eq_true,
    decide_eq_true_eq] at hab hbc
  simp only [pendingCompare, Bool.or_eq_true, Bool.and_eq_true,
    decide_eq_true_eq]
  rcases hab with h1 | ⟨h1, h2⟩ <;> rcases hbc with h3 | ⟨h3, h4⟩
  · exact Or.inl (by omega)
  · exact Or.inl (by omega)
  · exact Or.inl (by omega)
  · exact Or.inr ⟨h3.trans h1, h2.trans h4⟩

/-- `pendingCompare` is total. -/
theorem pendingCompare_total (a b : QueueItem) :
    (pendingCompare a b || pendingCompare b a) = true := by
  simp only [pendingCompare, Bool.or_eq_true, Bool.and_eq_true,
    decide_eq_true_eq]
  rcases lt_trichotomy a.priority b.priority with h | h | h
  · exact Or.inr (Or.inl h)
  · rcases le_total a.scheduled_at b.scheduled_at with h2 | h2
    · exact Or.inl (Or.inr ⟨h.symm, h2⟩)
    · exact Or.inr (Or.inr ⟨h, h2⟩)
  · exact Or.inl (Or.inl h)

/-- Sorting a two-element list just compares the two elements. -/
theorem mergeSort_pair {α : Type} (le : α → α → Bool) (a b : α) :
    List.mergeSort [a, b] le = if le a b then [a, b] else [b, a] := by
  simp [List.mergeSort, List.merge]

/-- Claim C3 amended: every returned item has status Pending or Deferred, a
scheduled time not after now and no pending retry time after now; at most
`limit` items come back; the order is priority descending then scheduled time
ascending.  (The code compares nothing else, so ties keep hash-map iteration
order — there is no id tie-break; `get_pending` takes `&self` and cannot touch
the store.) -/
theorem c3_get_pending_spec (s : QueueService) (limit : Nat) (now : Instant) :
    (∀ it ∈ s.get_pending limit now,
        (it.status = QueueStatus.Pending ∨ it.status = QueueStatus.Deferred)
        ∧ it.scheduled_at ≤ now
        ∧ ∀ t, it.next_retry_at = some t → t ≤ now)
    ∧ (s.get_pending limit now).length ≤ limit
    ∧ (s.get_pending limit now).Pairwise (fun a b =>
        b.priority < a.priority
        ∨ (b.priority = a.priority ∧ a.scheduled_at ≤ b.scheduled_at)) := by
  have hdef : s.get_pending limit now
      = (((s.items.map Prod.snd).filter (fun it =>
          (it.status = QueueStatus.Pending || it.status = QueueStatus.Deferred)
            && it.scheduled_at ≤ now
            && (match it.next_retry_at with
                | none => true
                | some t => t ≤ now))).mergeSort pendingCompare).take limit := rfl
  rw [hdef]
  refine ⟨?_, ?_, ?_⟩
  · intro it hit
    have h1 := List.mem_of_mem_take hit
    have h2 := (List.mergeSort_perm _ pendingCompare).mem_iff.mp h1
    have h3 := (List.mem_filter.mp h2).2
    simp only [Bool.and_eq_true, Bool.or_eq_true, decide_eq_true_eq] at h3
    refine ⟨h3.1.1, h3.1.2, ?_⟩
    intro t ht
    have h4 := h3.2
    rw [ht] at h4
    simpa using h4
  · rw [List.length_take]
    exact min_le_left _ _
  · have hs := List.sorted_mergeSort pendingCompare_trans pendingCompare_total
      ((s.items.map Prod.snd).filter (fun it =>
        (it.status = QueueStatus.Pending || it.status = QueueStatus.Deferred)
          && it.scheduled_at ≤ now
          && (match it.next_retry_at with
              | none => true
              | some t => t ≤ now)))
    have hp := List.Pairwise.sublist (List.take_sublist limit _) hs
    exact hp.imp (fun hab => by
      simpa [pendingCompare, Bool.or_eq_true, Bool.and_eq_true,
        decide_eq_true_eq] using hab)

/-- The eligibility order exactly as the spec words it (priority descending,
then scheduled time ascending, then id ascending as a tie-break) — written
from the spec, to be compared against the code order. -/
def specEligibleOrder (a b : QueueItem) : Prop :=
  b.priority < a.priority
  ∨ (a.priority = b.priority
      ∧ (a.scheduled_at < b.scheduled_at
          ∨ (a.scheduled_at = b.scheduled_at ∧ a.id ≤ b.id)))

/-- Pending item with queue id 2 (the younger item). -/
def c3ItemA : QueueItem := QueueItem.new (sampleEmail 0) 2 0

/-- Pending item with queue id 1 (the older item). -/
def c3ItemB : QueueItem := QueueItem.new (sampleEmail 1) 1 0

/-- A store whose hash map iterates id 2 before id 1 — an order the map is
free to produce; both items tie on priority and scheduled time. -/
def c3Store : QueueService :=
  { items := [(2, c3ItemA), (1, c3ItemB)]
    retry_policy := RetryPolicy.rpDefault
    max_size := 100000 }

/-- On that store `get_pending` returns the tied items in iteration order. -/
theorem c3Store_get_pending_eval : c3Store.get_pending 2 0 = [c3ItemA, c3ItemB] := by
  have hdef : c3Store.get_pending 2 0
      = (((c3Store.items.map Prod.snd).filter (fun it =>
          (it.status = QueueStatus.Pending || it.status = QueueStatus.Deferred)
            && it.scheduled_at ≤ (0 : Instant)
            && (match it.next_retry_at with
                | none => true
                | some t => t ≤ (0 : Instant)))).mergeSort pendingCompare).take 2 := rfl
  have hf : ((c3Store.items.map Prod.snd).filter (fun it =>
      (it.status = QueueStatus.Pending || it.status = QueueStatus.Deferred)
        && it.scheduled_at ≤ (0 : Instant)
        && (match it.next_retry_at with
            | none => true
            | some t => t ≤ (0 : Instant)))) = [c3ItemA, c3ItemB] := by decide
  rw [hdef, hf, mergeSort_pair]
  decide

/-- Claim C3 counterexample: both eligible items tie on priority (0) and on
scheduled time (0), and the one with the larger id is returned first — the
output violates the claimed id-ascending tie-break. -/
theorem c3_counterexample :
    (c3Store.get_pending 2 0).map QueueItem.id = [2, 1]
    ∧ ¬ (c3Store.get_pending 2 0).Pairwise specEligibleOrder
    ∧ (∀ it ∈ c3Store.get_pending 2 0,
        it.priority = 0 ∧ it.scheduled_at = 0) := by
  refine ⟨?_, ?_, ?_⟩
  · rw [c3Store_get_pending_eval]
    decide
  · rw [c3Store_get_pending_eval]
    intro hp
    have h2 := List.rel_of_pairwise_cons hp (List.mem_cons_self _ _)
    have h3 : ¬ specEligibleOrder c3ItemA c3ItemB := by
      unfold specEligibleOrder c3ItemA c3ItemB QueueItem.new
      simp
    exact h3 h2
  · rw [c3Store_get_pending_eval]
    intro it hit
    simp only [List.mem_cons, List.mem_singleton, List.not_mem_nil,
      or_false] at hit
    rcases hit with h | h
    · subst h; exact ⟨rfl, rfl⟩
    · subst h; exact ⟨rfl, rfl⟩

/-- Claim C3 witness: on the two-item store the returned items are Pending,
due, and at most two come back, sorted by the code order. -/
theorem c3_get_pending_spec_witness :
    (c3ItemA.status = QueueStatus.Pending ∨ c3ItemA.status = QueueStatus.Deferred)
    ∧ (c3Store.get_pending 2 0).length ≤ 2
    ∧ (c3Store.get_pending 2 0).Pairwise (fun a b =>
        b.priority < a.priority
        ∨ (b.priority = a.priority ∧ a.scheduled_at ≤ b.scheduled_at)) :=
  ⟨((c3_get_pending_spec c3Store 2 0).1 c3ItemA
      (by rw [c3Store_get_pending_eval]; exact List.mem_cons_self _ _)).1,
    (c3_get_pending_spec c3Store 2 0).2.1,
    (c3_get_pending_spec c3Store 2 0).2.2⟩

/-! ## Claim C4 — claim exclusivity -/

/-- `claim` on an absent id: NotFound, store untouched. -/
theorem claim_notfound (s : QueueService) (id : Nat) (w : String) (now : Instant)
    (h : imapGet s.items id = none) :
    s.claim id w now = (Except.error (QueueError.NotFound (toString id)), s) := by
  simp [QueueService.claim, h]

/-- `claim` on a claimable item: sets it processing and stores it. -/
theorem claim_success (s : QueueService) (id : Nat) (w : String) (now : Instant)
    (it : QueueItem) (h : imapGet s.items id = some it)
    (hst : it.status = QueueStatus.Pending ∨ it.status = QueueStatus.Deferred) :
    s.claim id w now = (Except.ok (it.start_processing w now),
      { s with items := imapInsert s.items id (it.start_processing w now) }) := by
  rcases hst with hst | hst <;> simp [QueueService.claim, h, hst]

/-- `claim` on a non-claimable item: InvalidState, store untouched. -/
theorem claim_invalid (s : QueueService) (id : Nat) (w : String) (now : Instant)
    (it : QueueItem) (h : imapGet s.items id = some it)
    (hst : ¬(it.status = QueueStatus.Pending ∨ it.status = QueueStatus.Deferred)) :
    s.claim id w now
      = (Except.error (QueueError.Invalid ("Item status is " ++ it.status.debugStr)),
        s) := by
  push_neg at hst
  simp [QueueService.claim, h, hst.1, hst.2]

/-- Claims against an absent id all fail with NotFound and change nothing. -/
theorem claimSeq_notfound (s : QueueService) (id : Nat)
    (calls : List (String × Instant)) (h : imapGet s.items id = none) :
    (claimSeq s id calls).1
      = List.replicate calls.length
          (Except.error (QueueError.NotFound (toString id)))
    ∧ (claimSeq s id calls).2 = s := by
  induction calls with
  | nil => simp [claimSeq]
  | cons c rest ih =>
    obtain ⟨w, t⟩ := c
    simp [claimSeq, claim_notfound s id w t h, ih, List.replicate_succ]

/-- Claims against a non-claimable item all fail with InvalidState and change
nothing. -/
theorem claimSeq_not_claimable (s : QueueService) (id : Nat)
    (calls : List (String × Instant)) (it : QueueItem)
    (h : imapGet s.items id = some it)
    (hst : ¬(it.status = QueueStatus.Pending ∨ it.status = QueueStatus.Deferred)) :
    (claimSeq s id calls).1
      = List.replicate calls.length
          (Except.error (QueueError.Invalid ("Item status is " ++ it.status.debugStr)))
    ∧ (claimSeq s id calls).2 = s := by
  induction calls with
  | nil => simp [claimSeq]
  | cons c rest ih =>
    obtain ⟨w, t⟩ := c
    simp [claimSeq, claim_invalid s id w t it h hst, ih, List.replicate_succ]

/-- A list of all-failed results has no successes. -/
theorem countOk_all_error (rs : List (Except QueueError QueueItem))
    (h : ∀ r ∈ rs, r.isOk = false) : countOk rs = 0 := by
  induction rs with
  | nil => rfl
  | cons r rest ih =>
    have hr := h r (List.mem_cons_self _ _)
    simp only [countOk, List.filter_cons, hr]
    exact ih (fun x hx => h x (List.mem_cons_of_mem _ hx))

/-- At most one claim in a row succeeds. -/
theorem claimSeq_countOk (id : Nat) (calls : List (String × Instant)) :
    ∀ s : QueueService, countOk (claimSeq s id calls).1 ≤ 1 := by
  induction calls with
  | nil => intro s; simp [claimSeq, countOk]
  | cons c rest ih =>
    intro s
    obtain ⟨w, t⟩ := c
    cases h : imapGet s.items id with
    | none =>
      rw [show claimSeq s id ((w, t) :: rest)
          = (let r := s.claim id w t
             ((r.1 :: (claimSeq r.2 id rest).1), (claimSeq r.2 id rest).2)) from rfl]
      simp only [claim_notfound s id w t h]
      have := ih s
      simp only [countOk, List.filter_cons] at this ⊢
      simpa using this
    | some it =>
      by_cases hst : it.status = QueueStatus.Pending ∨ it.status = QueueStatus.Deferred
      · rw [show claimSeq s id ((w, t) :: rest)
            = (let r := s.claim id w t
               ((r.1 :: (claimSeq r.2 id rest).1), (claimSeq r.2 id rest).2)) from rfl]
        simp only [claim_success s id w t it h hst]
        have hproc : imapGet (imapInsert s.items id (it.start_processing w t)) id
            = some (it.start_processing w t) := imapGet_imapInsert_self _ _ _
        have hrest := claimSeq_not_claimable
          { s with items := imapInsert s.items id (it.start_processing w t) }
          id rest (it.start_processing w t) hproc
          (by simp [QueueItem.start_processing])
        have hzero : countOk (claimSeq
            { s with items := imapInsert s.items id (it.start_processing w t) }
            id rest).1 = 0 := by
          apply countOk_all_error
          intro r hr
          rw [hrest.1] at hr
          rw [List.eq_of_mem_replicate hr]
          rfl
        simp only [countOk, List.filter_cons] at hzero ⊢
        simp [Except.isOk, Except.toBool]
        intro a ha
        rw [hrest.1] at ha
        rw [List.eq_of_mem_replicate ha]
      · rw [show claimSeq s id ((w, t) :: rest)
            = (let r := s.claim id w t
               ((r.1 :: (claimSeq r.2 id rest).1), (claimSeq r.2 id rest).2)) from rfl]
        simp only [claim_invalid s id w t it h hst]
        have := ih s
        simp only [countOk, List.filter_cons] at this ⊢
        simpa using this

/-- When the id is present, every failed claim in the sequence is an
InvalidState error. -/
theorem claimSeq_failed_invalid (id : Nat) (calls : List (String × Instant)) :
    ∀ (s : QueueService) (it : QueueItem), imapGet s.items id = some it →
      ∀ r ∈ (claimSeq s id calls).1, r.isOk = false →
        ∃ msg, r = Except.error (QueueError.Invalid msg) := by
  induction calls with
  | nil =>
    intro s it _ r hr
    exact absurd hr (List.not_mem_nil r)
  | cons c rest ih =>
    intro s it h r hr hfail
    obtain ⟨w, t⟩ := c
    rw [show claimSeq s id ((w, t) :: rest)
        = (let q := s.claim id w t
           ((q.1 :: (claimSeq q.2 id rest).1), (claimSeq q.2 id rest).2)) from rfl]
      at hr
    by_cases hst : it.status = QueueStatus.Pending ∨ it.status = QueueStatus.Deferred
    · simp only [claim_success s id w t it h hst] at hr
      rcases List.mem_cons.mp hr with h1 | h1
      · subst h1
        simp [Except.isOk, Except.toBool] at hfail
      · exact ih _ (it.start_processing w t) (imapGet_imapInsert_self _ _ _) r h1 hfail
    · simp only [claim_invalid s id w t it h hst] at hr
      rcases List.mem_cons.mp hr with h1 | h1
      · exact ⟨_, h1⟩
      · exact ih s it h r h1 hfail

/-- Claim C4: claim succeeds exactly when the item exists with status Pending
or Deferred; success atomically sets Processing, started_at, worker_id and
bumps attempts; in a run of claim calls on one id with no other transition,
at most one succeeds, the rest are InvalidState, and with an absent id every
call is NotFound. -/
theorem c4_claim_exclusive (s : QueueService) (id : Nat) (w : String)
    (now : Instant) (calls : List (String × Instant)) :
    ((s.claim id w now).1.isOk = true ↔
      ∃ it, imapGet s.items id = some it
        ∧ (it.status = QueueStatus.Pending ∨ it.status = QueueStatus.Deferred))
    ∧ (∀ it, imapGet s.items id = some it →
        (it.status = QueueStatus.Pending ∨ it.status = QueueStatus.Deferred) →
        (s.claim id w now).1 = Except.ok (it.start_processing w now)
        ∧ imapGet (s.claim id w now).2.items id = some (it.start_processing w now)
        ∧ (it.start_processing w now).status = QueueStatus.Processing
        ∧ (it.start_processing w now).started_at = some now
        ∧ (it.start_processing w now).worker_id = some w
        ∧ (it.start_processing w now).attempts = it.attempts + 1)
    ∧ (imapGet s.items id = none →
        (claimSeq s id calls).1
          = List.replicate calls.length
              (Except.error (QueueError.NotFound (toString id))))
    ∧ countOk (claimSeq s id calls).1 ≤ 1
    ∧ (∀ it, imapGet s.items id = some it →
        ∀ r ∈ (claimSeq s id calls).1, r.isOk = false →
          ∃ msg, r = Except.error (QueueError.Invalid msg)) := by
  refine ⟨?_, ?_, ?_, ?_, ?_⟩
  · constructor
    · intro hok
      cases h : imapGet s.items id with
      | none =>
        rw [claim_notfound s id w now h] at hok
        simp [Except.isOk, Except.toBool] at hok
      | some it =>
        by_cases hst : it.status = QueueStatus.Pending
            ∨ it.status = QueueStatus.Deferred
        · exact ⟨it, rfl, hst⟩
        · rw [claim_invalid s id w now it h hst] at hok
          simp [Except.isOk, Except.toBool] at hok
    · intro ⟨it, h, hst⟩
      rw [claim_success s id w now it h hst]
      rfl
  · intro it h hst
    rw [claim_success s id w now it h hst]
    exact ⟨rfl, imapGet_imapInsert_self _ _ _, rfl, rfl, rfl, rfl⟩
  · intro h
    exact (claimSeq_notfound s id calls h).1
  · exact claimSeq_countOk id calls s
  · intro it h
    exact claimSeq_failed_invalid id calls s it h

/-- Claim C4 witness: claiming the pending item with id 2 once succeeds with
attempts bumped to 1; a second claim call on the same id in the same run
fails, so exactly one of the two calls succeeds. -/
theorem c4_claim_exclusive_witness :
    (c3Store.claim 2 "w" 7).1 = Except.ok (c3ItemA.start_processing "w" 7)
    ∧ (c3ItemA.start_processing "w" 7).attempts = c3ItemA.attempts + 1
    ∧ countOk (claimSeq c3Store 2 [("w", 7), ("v", 8)]).1 ≤ 1 :=
  ⟨((c4_claim_exclusive c3Store 2 "w" 7 [("w", 7), ("v", 8)]).2.1 c3ItemA
      (by decide) (by decide)).1,
    ((c4_claim_exclusive c3Store 2 "w" 7 [("w", 7), ("v", 8)]).2.1 c3ItemA
      (by decide) (by decide)).2.2.2.2.2,
    (c4_claim_exclusive c3Store 2 "w" 7 [("w", 7), ("v", 8)]).2.2.2.1⟩

/-! ## Claim C2 — attempts never exceed the ceiling -/

/-- Per-item inductive invariant: the ceiling is the policy ceiling, attempts
stay within it, and claimable items are strictly below it. -/
def ItemInv (policy : RetryPolicy) (it : QueueItem) : Prop :=
  it.max_attempts = policy.max_attempts
  ∧ it.attempts ≤ it.max_attempts
  ∧ ((it.status = QueueStatus.Pending ∨ it.status = QueueStatus.Deferred) →
      it.attempts < it.max_attempts)

/-- Inserting an invariant-satisfying item preserves the store invariant. -/
theorem itemInv_insert {policy : RetryPolicy} {s : QueueService} {id : Nat}
    {it : QueueItem} (ih : ∀ p ∈ s.items, ItemInv policy p.2)
    (hit : ItemInv policy it) :
    ∀ p ∈ imapInsert s.items id it, ItemInv policy p.2 := by
  intro p hp
  rcases mem_imapInsert hp with h | h
  · rw [h]
    exact hit
  · exact ih p h

/-- The store invariant holds in every reachable state (positive ceiling). -/
theorem queue_reachable_inv {policy : RetryPolicy} {size : Nat}
    {s : QueueService} (hr : QueueReachable policy size s)
    (hpos : 1 ≤ policy.max_attempts) :
    s.retry_policy = policy ∧ ∀ p ∈ s.items, ItemInv policy p.2 := by
  induction hr with
  | init =>
    exact ⟨rfl, fun p hp => absurd hp (List.not_mem_nil p)⟩
  | @enqueue s email id now hprev ih =>
    obtain ⟨hrp, hinv⟩ := ih
    unfold QueueService.enqueue
    by_cases h : s.items.length ≥ s.max_size
    · rw [if_pos h]
      exact ⟨hrp, hinv⟩
    · rw [if_neg h]
      refine ⟨hrp, itemInv_insert hinv ?_⟩
      refine ⟨by simp [QueueItem.with_max_attempts, hrp], ?_, ?_⟩
      · simp [QueueItem.with_max_attempts, QueueItem.new]
      · intro _
        simp [QueueItem.with_max_attempts, QueueItem.new, hrp]
        omega
  | @schedule s email send_at id now hprev ih =>
    obtain ⟨hrp, hinv⟩ := ih
    unfold QueueService.schedule
    by_cases h : s.items.length ≥ s.max_size
    · rw [if_pos h]
      exact ⟨hrp, hinv⟩
    · rw [if_neg h]
      refine ⟨hrp, itemInv_insert hinv ?_⟩
      refine ⟨by simp [QueueItem.with_max_attempts, hrp], ?_, ?_⟩
      · simp [QueueItem.with_max_attempts, QueueItem.scheduled, QueueItem.new]
      · intro _
        simp [QueueItem.with_max_attempts, QueueItem.scheduled, QueueItem.new, hrp]
        omega
  | @claim s id w now hprev ih =>
    obtain ⟨hrp, hinv⟩ := ih
    cases h : imapGet s.items id with
    | none =>
      rw [claim_notfound s id w now h]
      exact ⟨hrp, hinv⟩
    | some it =>
      by_cases hst : it.status = QueueStatus.Pending
          ∨ it.status = QueueStatus.Deferred
      · rw [claim_success s id w now it h hst]
        have hii : ItemInv policy it := hinv (id, it) (imapGet_mem h)
        obtain ⟨h1, h2, h3⟩ := hii
        refine ⟨hrp, itemInv_insert hinv ?_⟩
        have hlt := h3 hst
        refine ⟨by simpa [QueueItem.start_processing] using h1, ?_, ?_⟩
        · simp only [QueueItem.start_processing]
          omega
        · intro hc
          simp [QueueItem.start_processing] at hc
      · rw [claim_invalid s id w now it h hst]
        exact ⟨hrp, hinv⟩
  | @mark_sent s id now hprev ih =>
    obtain ⟨hrp, hinv⟩ := ih
    cases h : imapGet s.items id with
    | none =>
      simp only [QueueService.mark_sent, h]
      exact ⟨hrp, hinv⟩
    | some it =>
      simp only [QueueService.mark_sent, h]
      have hii : ItemInv policy it := hinv (id, it) (imapGet_mem h)
      obtain ⟨h1, h2, h3⟩ := hii
      refine ⟨hrp, itemInv_insert hinv ?_⟩
      refine ⟨by simpa [QueueItem.mark_sent] using h1, ?_, ?_⟩
      · simpa [QueueItem.mark_sent] using h2
      · intro hc
        simp [QueueItem.mark_sent] at hc
  | @mark_failed s id error now hprev ih =>
    obtain ⟨hrp, hinv⟩ := ih
    cases h : imapGet s.items id with
    | none =>
      simp only [QueueService.mark_failed, h]
      exact ⟨hrp, hinv⟩
    | some it =>
      simp only [QueueService.mark_failed, h]
      have hii : ItemInv policy it := hinv (id, it) (imapGet_mem h)
      obtain ⟨h1, h2, h3⟩ := hii
      refine ⟨hrp, itemInv_insert hinv ?_⟩
      by_cases hcr : it.attempts < it.max_attempts
      · refine ⟨?_, ?_, ?_⟩
        · simpa [QueueItem.mark_failed, QueueItem.can_retry, hcr] using h1
        · simp only [QueueItem.mark_failed, QueueItem.can_retry]
          simp [hcr]
          omega
        · intro _
          simp [QueueItem.mark_failed, QueueItem.can_retry, hcr]
      · refine ⟨?_, ?_, ?_⟩
        · simpa [QueueItem.mark_failed, QueueItem.can_retry, hcr] using h1
        · simp only [QueueItem.mark_failed, QueueItem.can_retry]
          simp [hcr]
          omega
        · intro hc
          simp [QueueItem.mark_failed, QueueItem.can_retry, hcr] at hc
  | @cancel s id now hprev ih =>
    obtain ⟨hrp, hinv⟩ := ih
    cases h : imapGet s.items id with
    | none =>
      simp only [QueueService.cancel, h]
      exact ⟨hrp, hinv⟩
    | some it =>
      by_cases hsent : it.status = QueueStatus.Sent
      · simp only [QueueService.cancel, h, hsent]
        exact ⟨hrp, hinv⟩
      · simp only [QueueService.cancel, h, if_neg hsent]
        have hii : ItemInv policy it := hinv (id, it) (imapGet_mem h)
        obtain ⟨h1, h2, h3⟩ := hii
        refine ⟨hrp, itemInv_insert hinv ?_⟩
        refine ⟨by simpa [QueueItem.cancel] using h1, ?_, ?_⟩
        · simpa [QueueItem.cancel] using h2
        · intro hc
          simp [QueueItem.cancel] at hc
  | @retry s id now hprev ih =>
    obtain ⟨hrp, hinv⟩ := ih
    cases h : imapGet s.items id with
    | none =>
      simp only [QueueService.retry, h]
      exact ⟨hrp, hinv⟩
    | some it =>
      by_cases hst : it.status = QueueStatus.Failed
          ∨ it.status = QueueStatus.Cancelled
      · have hstb : (it.status = QueueStatus.Failed
            || it.status = QueueStatus.Cancelled) = true := by
          rcases hst with h1 | h1 <;> simp [h1]
        simp only [QueueService.retry, h, hstb, if_pos]
        have hii : ItemInv policy it := hinv (id, it) (imapGet_mem h)
        obtain ⟨h1, h2, h3⟩ := hii
        refine ⟨hrp, itemInv_insert hinv ?_⟩
        refine ⟨by simpa using h1, ?_, ?_⟩
        · simp
        · intro _
          simp
          omega
      · have hstb : (it.status = QueueStatus.Failed
            || it.status = QueueStatus.Cancelled) = false := by
          push_neg at hst
          simp [hst.1, hst.2]
        simp only [QueueService.retry, h, hstb]
        exact ⟨hrp, hinv⟩
  | @set_priority s id priority hprev ih =>
    obtain ⟨hrp, hinv⟩ := ih
    cases h : imapGet s.items id with
    | none =>
      simp only [QueueService.set_priority, h]
      exact ⟨hrp, hinv⟩
    | some it =>
      simp only [QueueService.set_priority, h]
      have hii : ItemInv policy it := hinv (id, it) (imapGet_mem h)
      obtain ⟨h1, h2, h3⟩ := hii
      exact ⟨hrp, itemInv_insert hinv ⟨h1, h2, h3⟩⟩

/-- Claim C2 amended: in every reachable state of a service whose configured
max_attempts is at least 1 (the default is 3), no stored item has attempts
above its max_attempts; and markFailed on an item whose attempts equal its
max_attempts always yields status Failed, never Deferred. -/
theorem c2_attempts_bounded (policy : RetryPolicy) (size : Nat)
    (s : QueueService) (hr : QueueReachable policy size s)
    (hpos : 1 ≤ policy.max_attempts) :
    (∀ p ∈ s.items, p.2.attempts ≤ p.2.max_attempts)
    ∧ ∀ (it : QueueItem) (e : String) (now : Instant),
        it.attempts = it.max_attempts →
        (it.mark_failed e now).status = QueueStatus.Failed := by
  constructor
  · intro p hp
    exact ((queue_reachable_inv hr hpos).2 p hp).2.1
  · intro it e now heq
    have hn : ¬ it.attempts < it.max_attempts := by omega
    simp [QueueItem.mark_failed, QueueItem.can_retry, hn]

/-- Retry policy configured with a zero attempt ceiling. -/
def policy0 : RetryPolicy := { RetryPolicy.rpDefault with max_attempts := 0 }

/-- A service configured with the zero ceiling. -/
def c2Service0 : QueueService :=
  (QueueService.new.with_retry_policy policy0).with_max_size 100000

/-- That service after one enqueue. -/
def c2Service1 : QueueService := (c2Service0.enqueue (sampleEmail 0) 1 0).2

/-- That service after the enqueued item is claimed once. -/
def c2Service2 : QueueService := (c2Service1.claim 1 "w" 0).2

/-- Claim C2 counterexample: with a configured max_attempts of 0 a single
claim on the enqueued pending item drives attempts to 1 > 0 = max_attempts in
a reachable state. -/
theorem c2_counterexample :
    QueueReachable policy0 100000 c2Service2
    ∧ (imapGet c2Service2.items 1).map (fun it => (it.attempts, it.max_attempts))
        = some (1, 0) :=
  ⟨QueueReachable.claim 1 "w" 0
      (QueueReachable.enqueue (sampleEmail 0) 1 0 QueueReachable.init),
    by decide⟩

/-- An item already at its attempt ceiling. -/
def c2ItemAtCeiling : QueueItem :=
  { QueueItem.new (sampleEmail 0) 7 0 with attempts := 3 }

/-- Claim C2 witness: with the default policy (ceiling 3) the freshly enqueued
item respects the bound, and markFailed at the ceiling lands in Failed. -/
theorem c2_attempts_bounded_witness :
    ((QueueItem.new (sampleEmail 0) 1 0).with_max_attempts 3).attempts
        ≤ ((QueueItem.new (sampleEmail 0) 1 0).with_max_attempts 3).max_attempts
    ∧ (c2ItemAtCeiling.mark_failed "err" 5).status = QueueStatus.Failed :=
  ⟨(c2_attempts_bounded RetryPolicy.rpDefault 100000 _
      (QueueReachable.enqueue (sampleEmail 0) 1 0 QueueReachable.init)
      (by decide)).1
      (1, (QueueItem.new (sampleEmail 0) 1 0).with_max_attempts 3) (by decide),
    (c2_attempts_bounded RetryPolicy.rpDefault 100000 _ QueueReachable.init
      (by decide)).2 c2ItemAtCeiling "err" 5 (by decide)⟩

/-! ## Claim C1 — soft-bounce escalation and the suppression list -/

/-- String-key counterpart of `mem_imapInsert`. -/
theorem mem_mapInsert {β : Type} {m : List (String × β)} {k : String} {v : β}
    {p : String × β} (h : p ∈ mapInsert m k v) : p = (k, v) ∨ p ∈ m := by
  induction m with
  | nil => simpa [mapInsert] using h
  | cons q rest ih =>
    obtain ⟨k1, v1⟩ := q
    by_cases hk : k1 = k
    · simp only [mapInsert, if_pos hk, List.mem_cons] at h
      rcases h with h | h
      · exact Or.inl h
      · exact Or.inr (List.mem_cons_of_mem _ h)
    · simp only [mapInsert, if_neg hk, List.mem_cons] at h
      rcases h with h | h
      · exact Or.inr (by simp [h])
      · rcases ih h with h2 | h2
        · exact Or.inl h2
        · exact Or.inr (List.mem_cons_of_mem _ h2)

/-- An updated bounce record that is still classified soft with count at least
3 carries the suppressed flag. -/
theorem updateBounceRecord_soft_flag (record : BounceRecord) (bt : BounceType)
    (err : Option String) (now : Instant) :
    (updateBounceRecord record bt err now).bounce_type = BounceType.Soft →
    3 ≤ (updateBounceRecord record bt err now).bounce_count →
    (updateBounceRecord record bt err now).suppressed = true := by
  by_cases hA : record.bounce_type = BounceType.Soft <;>
    by_cases hC : 3 ≤ record.bounce_count + 1 <;>
    by_cases hB : bt = BounceType.Hard <;>
    simp [updateBounceRecord, BounceRecord.add_bounce, hA, hC, hB]

/-- The bounces map after `record_bounce` when a record already exists. -/
theorem record_bounce_bounces_some (st : LogState) (log : EmailLog)
    (freshId : Nat) (now : Instant) (record : BounceRecord)
    (hg : mapGet st.bounces (lowerStr log.recipient) = some record) :
    (st.record_bounce log freshId now).bounces
      = mapInsert st.bounces (lowerStr log.recipient)
          (updateBounceRecord record (bounceTypeOf log.event) log.error now) := by
  simp only [LogState.record_bounce]
  rw [hg]
  by_cases hb : bounceTypeOf log.event = BounceType.Hard <;>
    simp [hb, LogState.add_to_suppression]

/-- The bounces map after `record_bounce` when no record exists yet. -/
theorem record_bounce_bounces_none (st : LogState) (log : EmailLog)
    (freshId : Nat) (now : Instant)
    (hg : mapGet st.bounces (lowerStr log.recipient) = none) :
    (st.record_bounce log freshId now).bounces
      = mapInsert st.bounces (lowerStr log.recipient)
          { BounceRecord.new (lowerStr log.recipient) (bounceTypeOf log.event)
              freshId now with reason := log.error } := by
  simp only [LogState.record_bounce]
  rw [hg]
  by_cases hb : bounceTypeOf log.event = BounceType.Hard <;>
    simp [hb, LogState.add_to_suppression]

/-- `record_bounce` preserves the soft-record invariant. -/
theorem record_bounce_soft_inv (st : LogState) (log : EmailLog)
    (freshId : Nat) (now : Instant)
    (ih : ∀ p ∈ st.bounces, p.2.bounce_type = BounceType.Soft →
      3 ≤ p.2.bounce_count → p.2.suppressed = true) :
    ∀ p ∈ (st.record_bounce log freshId now).bounces,
      p.2.bounce_type = BounceType.Soft → 3 ≤ p.2.bounce_count →
        p.2.suppressed = true := by
  intro p hp
  cases hg : mapGet st.bounces (lowerStr log.recipient) with
  | some record =>
    rw [record_bounce_bounces_some st log freshId now record hg] at hp
    rcases mem_mapInsert hp with h | h
    · rw [h]
      exact updateBounceRecord_soft_flag record (bounceTypeOf log.event)
        log.error now
    · exact ih p h
  | none =>
    rw [record_bounce_bounces_none st log freshId now hg] at hp
    rcases mem_mapInsert hp with h | h
    · rw [h]
      intro _ hcnt
      simp [BounceRecord.new] at hcnt
    · exact ih p h

/-- `log` only changes the bounces map through `record_bounce`. -/
theorem log_bounces_eq (st : LogState) (entry : EmailLog) (freshId : Nat)
    (now : Instant) :
    (st.log entry freshId now).bounces
      = (st.record_bounce entry freshId now).bounces
    ∨ (st.log entry freshId now).bounces = st.bounces := by
  cases hev : entry.event <;>
    simp [LogState.log, hev, LogState.record_complaint,
      LogState.add_to_suppression]

/-- Claim C1 amended: in every reachable log-service state, a soft-classified
bounce record whose count has reached 3 carries suppressed = true on the
record itself (even with no hard bounce ever recorded).  Suppression-list
entries are made only for hard bounces, spam complaints, unsubscribes and
manual suppressions — soft-bounce escalation never writes one. -/
theorem c1_soft_bounce_record_flag (st : LogState) (hr : LogReachable st) :
    ∀ p ∈ st.bounces, p.2.bounce_type = BounceType.Soft →
      3 ≤ p.2.bounce_count → p.2.suppressed = true := by
  induction hr with
  | init =>
    intro p hp
    exact absurd hp (List.not_mem_nil p)
  | @log st entry freshId now hprev ih =>
    rcases log_bounces_eq st entry freshId now with h | h
    · rw [h]
      exact record_bounce_soft_inv st entry freshId now ih
    · rw [h]
      exact ih
  | @suppress st email reason hprev ih =>
    simpa [LogState.add_to_suppression] using ih
  | @unsuppress st email hprev ih =>
    simpa [LogState.remove_from_suppression] using ih

/-- One recorded soft bounce for the mixed-case address. -/
def softLog (n : Nat) : EmailLog :=
  EmailLog.new 0 EmailEvent.SoftBounce "A@X.com" "s" n n

/-- The log state after three soft bounces for the same address. -/
def c1St : LogState :=
  ((LogState.new.log (softLog 1) 1 1).log (softLog 2) 2 2).log (softLog 3) 3 3

/-- Claim C1 counterexample: after three soft bounces the bounce record is
soft, at count 3 and flagged suppressed, yet isSuppressed still answers false
— the suppression list got no entry, breaking the claimed lockstep. -/
theorem c1_counterexample :
    (c1St.get_bounce "A@X.com").map
        (fun r => (r.bounce_type, r.bounce_count, r.suppressed))
      = some (BounceType.Soft, 3, true)
    ∧ c1St.is_suppressed "A@X.com" = false := by
  constructor
  · decide
  · decide

/-- The bounce record three soft bounces produce. -/
def c1Rec : BounceRecord :=
  { id := 1
    email := "a@x.com"
    bounce_type := BounceType.Soft
    reason := none
    diagnostic := none
    first_bounce := 1
    last_bounce := 3
    bounce_count := 3
    suppressed := true }

/-- Claim C1 witness: the three-soft-bounce state is reachable and the theorem
yields the suppressed flag on its record. -/
theorem c1_soft_bounce_record_flag_witness :
    ("a@x.com", c1Rec) ∈ c1St.bounces ∧ c1Rec.suppressed = true :=
  ⟨by decide,
    c1_soft_bounce_record_flag c1St
      (LogReachable.log (softLog 3) 3 3
        (LogReachable.log (softLog 2) 2 2
          (LogReachable.log (softLog 1) 1 1 LogReachable.init)))
      ("a@x.com", c1Rec) (by decide) (by decide) (by decide)⟩

end Rustmail
